import Mathlib

/-!
Verification of the synth-engine workflow synthesis pipeline.

This file gives a shallow embedding, in Lean 4, of the core data model and
algorithms of the synth-engine repository (a natural-language-to-n8n workflow
synthesizer), and proves or refutes the behavioural properties stated in its
specification.

Embedded components and their sources:
* `app/models/workflow_ir.py` - the typed workflow IR (StepSpec, EdgeSpec,
  WorkflowIR) together with its pydantic validators, modelled as checked
  constructors returning `Except`.
* `app/roma/aggregator.py` - branch/merge topology repair
  (`_fix_branching_topology`) and reachability repair (`_ensure_reachability`).
* `app/roma/planner.py` - the DAG leveling used by `can_parallelize`.
* `app/roma/iterator.py` - the patch interpreter `apply_fixes`.
* `app/roma/orchestrator.py` - the iteration loop's stop conditions.
* `app/n8n/compiler.py` - IR-to-n8n lowering and `validate_compiled`.
* `app/n8n/capability_resolver.py` - the ordered intent table and the
  per-category resolvers.
* `app/testing/harness.py` - the `_check_invariant` checkers.

Modelling conventions: python dicts with a known key set become structures;
dicts used as maps become association lists with python's insertion-order
update semantics; `None`-able strings become `Option String`; python
truthiness of strings/lists is an emptiness test; fresh uuid identifiers are
supplied deterministically (their values are never compared by the embedded
code paths we verify).
-/

namespace SynthEngine

/-- Step types (`StepType` in `app/models/workflow_ir.py`). -/
inductive StepType where
  | trigger
  | action
  | branch
  | merge
  | agent
  | transform
deriving DecidableEq, Repr

/-- Agent specification (`AgentSpec` in `app/models/workflow_ir.py`).
Only the fields read by the embedded code paths (the compiler's agent
lowering) are carried: `name` and `role`; the schema/token fields are never
inspected by the functions verified here. -/
structure AgentSpec where
  name : String
  role : String
deriving DecidableEq, Repr

/-- One entry of `StepSpec.branch_conditions`: a python dict with the
optional keys `name`, `value` and `output` that the aggregator and compiler
read (`conditions[i].get("name")` etc.). -/
structure BranchCond where
  name : Option String := none
  value : Option String := none
  output : Option String := none
deriving DecidableEq, Repr

/-- Node layout position (`Position` in `app/models/workflow_ir.py`). -/
structure Position where
  x : Int := 0
  y : Int := 0
deriving DecidableEq, Repr

/-- Workflow step (`StepSpec` in `app/models/workflow_ir.py`).

`branch_conditions : Optional[list[dict]]` is modelled as a plain list:
every consumer either coerces `None` with `or []` or only tests truthiness,
so `None` and `[]` are indistinguishable in the embedded code.

The fields `tool_id`, `capability` and `integration_hint` are
Modelled from the spec: the compiler (`app/n8n/compiler.py`) and the test
`tests/test_tool_resolution.py` read and construct these step-metadata
fields ("a stable task descriptor (agent name, capability tag, integration
hint, node id)", spec section 4.4), but the pydantic `StepSpec` class in
`src` does not declare them; they are optional with default `None`. -/
structure StepSpec where
  id : String
  name : String
  type : StepType
  description : Option String := none
  agent : Option AgentSpec := none
  n8n_node_type : String := ""
  n8n_type_version : Int := 1
  parameters : List (String × String) := []
  branch_conditions : List BranchCond := []
  position : Position := {}
  tool_id : Option String := none
  capability : Option String := none
  integration_hint : Option String := none
deriving DecidableEq, Repr

/-- Checked construction of a `StepSpec`, mirroring the pydantic
`field_validator("agent") validate_agent`: a step of type `AGENT` with
`agent = None` is rejected with a `ValueError`; no other combination of
`type` and `agent` is restricted. -/
def StepSpec.make (id name : String) (type : StepType) (agent : Option AgentSpec)
    (n8n_node_type : String) : Except String StepSpec :=
  if type = StepType.agent ∧ agent = none then
    .error "Agent specification required for AGENT type steps"
  else
    .ok { id := id, name := name, type := type, agent := agent,
          n8n_node_type := n8n_node_type }

/-- Workflow edge (`EdgeSpec` in `app/models/workflow_ir.py`). The data
contract and transform expression are never inspected by the embedded code
paths and are elided. -/
structure EdgeSpec where
  id : String
  source_id : String
  target_id : String
  source_output : String := "main"
  target_input : String := "main"
  condition : Option String := none
  label : Option String := none
deriving DecidableEq, Repr

/-- Workflow IR (`WorkflowIR` in `app/models/workflow_ir.py`): a trigger
step, the non-trigger steps and the edges. Error strategy, success criteria
and metadata are not read by the graph algorithms verified here. -/
structure WorkflowIR where
  name : String
  trigger : StepSpec
  steps : List StepSpec
  edges : List EdgeSpec
deriving DecidableEq, Repr

/-- The id set `{trigger.id} ∪ {s.id for s in steps}` computed by
`validate_graph_integrity`. -/
def WorkflowIR.stepIds (ir : WorkflowIR) : List String :=
  ir.trigger.id :: ir.steps.map (fun s => s.id)

/-- Graph-validity of the edge endpoints: every edge's `source_id` and
`target_id` is the trigger's id or the id of some step. -/
def WorkflowIR.edgesValid (ir : WorkflowIR) : Bool :=
  ir.edges.all (fun e =>
    ir.stepIds.contains e.source_id && ir.stepIds.contains e.target_id)

/-- Every non-trigger step is the target of at least one edge (the
"dangling node" check of `validate_graph_integrity`). -/
def WorkflowIR.stepsReferenced (ir : WorkflowIR) : Bool :=
  ir.steps.all (fun s => (ir.edges.map (fun e => e.target_id)).contains s.id)

/-- Checked construction of a `WorkflowIR`, mirroring the pydantic
`model_validator validate_graph_integrity`: reject any edge whose source or
target id is not among the trigger and step ids, then reject any step that
is the target of no edge. -/
def WorkflowIR.make (name : String) (trigger : StepSpec) (steps : List StepSpec)
    (edges : List EdgeSpec) : Except String WorkflowIR :=
  let ids : List String := trigger.id :: steps.map (fun s => s.id)
  match edges.find? (fun e => !(ids.contains e.source_id) || !(ids.contains e.target_id)) with
  | some e =>
    .error (if ids.contains e.source_id then "Edge target not found" else "Edge source not found")
  | none =>
    let referenced : List String := edges.map (fun e => e.target_id)
    match steps.find? (fun s => !(referenced.contains s.id)) with
    | some _ => .error "Step is not reachable"
    | none => .ok { name := name, trigger := trigger, steps := steps, edges := edges }

/-! ## Iterator patch interpreter (`app/roma/iterator.py`, `Iterator.apply_fixes`) -/

/-- Parse a step-type string, mirroring python's `StepType(value)` enum
lookup; an unknown value raises `ValueError` (here: `none`). -/
def stepTypeOfString : String → Option StepType
  | "trigger" => some StepType.trigger
  | "action" => some StepType.action
  | "branch" => some StepType.branch
  | "merge" => some StepType.merge
  | "agent" => some StepType.agent
  | "transform" => some StepType.transform
  | _ => none

/-- Python `dict.update`: values of existing keys are overwritten in place,
new keys are appended in order. -/
def dictUpdate (d upd : List (String × String)) : List (String × String) :=
  upd.foldl
    (fun acc kv =>
      if acc.any (fun p => p.1 = kv.1) then
        acc.map (fun p => if p.1 = kv.1 then (p.1, kv.2) else p)
      else acc ++ [kv])
    d

/-- Apply a function to the first step with the given id (python's
`for step in steps: if step.id == step_id: ...; break`). -/
def updateFirstStep (steps : List StepSpec) (sid : String) (f : StepSpec → StepSpec) :
    List StepSpec :=
  match steps with
  | [] => []
  | s :: rest => if s.id = sid then f s :: rest else s :: updateFirstStep rest sid f

/-- One structured patch consumed by `Iterator.apply_fixes`. Missing
(`None`) source/target ids in an `add_edge`/`remove_edge` fix are modelled
as `""`, matching python truthiness (`if source_id and target_id`). -/
inductive Fix where
  | update_parameters (step_id : String) (parameters : List (String × String))
  | replace_node (step_id : String) (new_node_type : String)
      (parameters : List (String × String))
  | add_edge (source_id target_id : String)
  | remove_edge (source_id target_id : String)
  | add_step (id name typeName n8n_type : String)
      (parameters : List (String × String))
  | remove_step (step_id : String)
deriving DecidableEq, Repr

/-- Apply one fix, mirroring the `_apply_*` helpers of
`app/roma/iterator.py`. A fix that raises inside its helper (an unknown
step type, or the `StepSpec` agent validator firing in `_apply_add_step`)
is caught by `apply_fixes` and skipped, leaving the IR unchanged. The
freshly generated uuid of a synthesized edge or step is never read by the
properties verified here and is supplied as `""` / the given id. -/
def applyFix (ir : WorkflowIR) : Fix → WorkflowIR
  | .update_parameters sid params =>
    if ir.trigger.id = sid then
      { ir with trigger := { ir.trigger with parameters := dictUpdate ir.trigger.parameters params } }
    else
      { ir with steps := (updateFirstStep ir.steps sid
          (fun s => { s with parameters := dictUpdate s.parameters params })) }
  | .replace_node sid newType params =>
    { ir with steps := (updateFirstStep ir.steps sid
        (fun s => { s with n8n_node_type := newType, parameters := params })) }
  | .add_edge src tgt =>
    if src ≠ "" ∧ tgt ≠ "" then
      if ir.edges.any (fun e => e.source_id = src ∧ e.target_id = tgt) then ir
      else { ir with edges := ir.edges ++ [{ id := "", source_id := src, target_id := tgt }] }
    else ir
  | .remove_edge src tgt =>
    { ir with edges := ir.edges.filter (fun e => ¬(e.source_id = src ∧ e.target_id = tgt)) }
  | .add_step id name typeName n8nType params =>
    match stepTypeOfString typeName with
    | none => ir
    | some ty =>
      if ty = StepType.agent then ir
      else
        let maxX : Int := (ir.steps.map (fun s => s.position.x)).foldl max 0
        { ir with steps := ir.steps ++
            [{ id := id, name := name, type := ty, n8n_node_type := n8nType,
               parameters := params, position := { x := maxX + 300, y := 300 } }] }
  | .remove_step sid =>
    { ir with
      steps := ir.steps.filter (fun s => ¬ s.id = sid),
      edges := ir.edges.filter (fun e => ¬ e.source_id = sid ∧ ¬ e.target_id = sid) }

/-- `Iterator.apply_fixes`: fold the patch list over a copy of the IR. -/
def applyFixes (ir : WorkflowIR) (fixes : List Fix) : WorkflowIR :=
  fixes.foldl applyFix ir

/-- An `add_edge` fix is endpoint-safe for a given IR when it is skipped
(a missing id) or both endpoints name the trigger or an existing step.
Every other fix kind is unconditionally endpoint-safe. -/
def fixOk (ir : WorkflowIR) : Fix → Bool
  | .add_edge src tgt =>
    src = "" || tgt = "" || (ir.stepIds.contains src && ir.stepIds.contains tgt)
  | _ => true

/-- A fix list is endpoint-safe when each fix is endpoint-safe for the IR
state it is applied to. -/
def fixesOk : WorkflowIR → List Fix → Bool
  | _, [] => true
  | ir, f :: fs => fixOk ir f && fixesOk (applyFix ir f) fs

/-! ## Lemmas about edge-endpoint validity under `applyFix` -/

/-- Membership reading of `WorkflowIR.edgesValid`. -/
lemma edgesValid_iff (ir : WorkflowIR) :
    ir.edgesValid = true ↔
      ∀ e ∈ ir.edges, e.source_id ∈ ir.stepIds ∧ e.target_id ∈ ir.stepIds := by
  simp [WorkflowIR.edgesValid, List.all_eq_true, Bool.and_eq_true, List.elem_iff,
    List.contains]

/-- `updateFirstStep` preserves the id sequence of the step list whenever
the update function preserves the step id. -/
lemma updateFirstStep_map_id (sid : String) (f : StepSpec → StepSpec)
    (hf : ∀ s, (f s).id = s.id) :
    ∀ steps : List StepSpec,
      (updateFirstStep steps sid f).map (fun s => s.id) = steps.map (fun s => s.id) := by
  intro steps
  induction steps with
  | nil => rfl
  | cons s rest ih =>
    unfold updateFirstStep
    by_cases h : s.id = sid
    · simp [h, hf]
    · simp [h, ih]

/-- Membership in `stepIds` survives filtering the step list by any
predicate that keeps every step whose id equals the member (used for
`remove_step`). -/
lemma mem_stepIds_filter (ir : WorkflowIR) (p : StepSpec → Bool) (x : String)
    (hx : x ∈ ir.stepIds) (hkeep : ∀ s ∈ ir.steps, s.id = x → p s = true) :
    x ∈ WorkflowIR.stepIds { ir with steps := ir.steps.filter p } := by
  simp only [WorkflowIR.stepIds, List.mem_cons, List.mem_map] at hx ⊢
  rcases hx with h | ⟨s, hs, hid⟩
  · exact Or.inl h
  · exact Or.inr ⟨s, List.mem_filter.mpr ⟨hs, hkeep s hs hid⟩, hid⟩

/-- Applying a single endpoint-safe fix preserves edge-endpoint validity. -/
lemma edgesValid_applyFix (ir : WorkflowIR) (f : Fix)
    (hv : ir.edgesValid = true) (hok : fixOk ir f = true) :
    (applyFix ir f).edgesValid = true := by
  rw [edgesValid_iff] at hv ⊢
  cases f with
  | update_parameters sid params =>
    by_cases h : ir.trigger.id = sid
    · have hres : applyFix ir (Fix.update_parameters sid params) =
          { ir with trigger := { ir.trigger with
              parameters := dictUpdate ir.trigger.parameters params } } := by
        simp only [applyFix, if_pos h]
      rw [hres]
      intro e he
      exact hv e he
    · have hres : applyFix ir (Fix.update_parameters sid params) =
          { ir with steps := (updateFirstStep ir.steps sid
            (fun s => { s with parameters := dictUpdate s.parameters params })) } := by
        simp only [applyFix, if_neg h]
      have hids : (WorkflowIR.stepIds { ir with steps := (updateFirstStep ir.steps sid
          (fun s => { s with parameters := dictUpdate s.parameters params })) }) =
          ir.stepIds := by
        simp only [WorkflowIR.stepIds]
        rw [updateFirstStep_map_id sid
          (fun s => { s with parameters := dictUpdate s.parameters params }) (fun _ => rfl)]
      rw [hres]
      intro e he
      rw [hids]
      exact hv e he
  | replace_node sid newType params =>
    have hids : (WorkflowIR.stepIds { ir with steps := (updateFirstStep ir.steps sid
        (fun s => { s with n8n_node_type := newType, parameters := params })) }) =
        ir.stepIds := by
      simp only [WorkflowIR.stepIds]
      rw [updateFirstStep_map_id sid
        (fun s => { s with n8n_node_type := newType, parameters := params }) (fun _ => rfl)]
    show ∀ e ∈ ir.edges, _
    intro e he
    rw [show (applyFix ir (Fix.replace_node sid newType params)) =
        { ir with steps := (updateFirstStep ir.steps sid
          (fun s => { s with n8n_node_type := newType, parameters := params })) } from rfl,
      hids]
    exact hv e he
  | add_edge src tgt =>
    by_cases h : src ≠ "" ∧ tgt ≠ ""
    · by_cases hdup :
        ir.edges.any (fun e => e.source_id = src ∧ e.target_id = tgt) = true
      · have hres : applyFix ir (Fix.add_edge src tgt) = ir := by
          simp only [applyFix, if_pos h, if_pos hdup]
        rw [hres]; exact hv
      · have hres : applyFix ir (Fix.add_edge src tgt) =
            { ir with edges := ir.edges ++
              [{ id := "", source_id := src, target_id := tgt }] } := by
          simp only [applyFix, if_pos h, if_neg hdup]
        have hmem : src ∈ ir.stepIds ∧ tgt ∈ ir.stepIds := by
          simp only [fixOk, Bool.or_eq_true, decide_eq_true_eq, Bool.and_eq_true,
            List.contains, List.elem_iff] at hok
          rcases hok with hbad | hboth
          · rcases hbad with hbad | hbad
            · exact absurd hbad h.1
            · exact absurd hbad h.2
          · exact hboth
        rw [hres]
        intro e he
        rcases List.mem_append.mp he with he1 | he1
        · exact hv e he1
        · rcases List.mem_singleton.mp he1 with rfl
          exact hmem
    · have hres : applyFix ir (Fix.add_edge src tgt) = ir := by
        simp only [applyFix, if_neg h]
      rw [hres]; exact hv
  | remove_edge src tgt =>
    intro e he
    have he1 : e ∈ ir.edges := (List.mem_filter.mp he).1
    exact hv e he1
  | add_step id name typeName n8nType params =>
    cases hty : stepTypeOfString typeName with
    | none =>
      have hres : applyFix ir (Fix.add_step id name typeName n8nType params) = ir := by
        simp only [applyFix, hty]
      rw [hres]; exact hv
    | some ty =>
      by_cases hagent : ty = StepType.agent
      · have hres : applyFix ir (Fix.add_step id name typeName n8nType params) = ir := by
          simp only [applyFix, hty, if_pos hagent]
        rw [hres]; exact hv
      · have hres : applyFix ir (Fix.add_step id name typeName n8nType params) =
            { ir with steps := ir.steps ++
              [{ id := id, name := name, type := ty, n8n_node_type := n8nType,
                 parameters := params,
                 position := { x := ((ir.steps.map (fun s => s.position.x)).foldl max 0) + 300,
                               y := 300 } }] } := by
          simp only [applyFix, hty, if_neg hagent]
        rw [hres]
        intro e he
        have hmono : ∀ x : String, x ∈ ir.stepIds →
            x ∈ WorkflowIR.stepIds { ir with steps := ir.steps ++
              [{ id := id, name := name, type := ty, n8n_node_type := n8nType,
                 parameters := params,
                 position := { x := ((ir.steps.map (fun s => s.position.x)).foldl max 0) + 300,
                               y := 300 } }] } := by
          intro x hx
          simp only [WorkflowIR.stepIds, List.mem_cons, List.map_append,
            List.mem_append] at hx ⊢
          rcases hx with hx | hx
          · exact Or.inl hx
          · exact Or.inr (Or.inl hx)
        exact ⟨hmono _ (hv e he).1, hmono _ (hv e he).2⟩
  | remove_step sid =>
    intro e he
    have he' := List.mem_filter.mp he
    have hne : e.source_id ≠ sid ∧ e.target_id ≠ sid := by
      have h2 := he'.2
      simp only [decide_eq_true_eq, not_and, not_not] at h2
      constructor
      · intro hc
        have := of_decide_eq_true he'.2
        exact this.1 hc
      · intro hc
        have := of_decide_eq_true he'.2
        exact this.2 hc
    have hold := hv e he'.1
    constructor
    · exact mem_stepIds_filter ir _ _ hold.1
        (fun s _ hsid => decide_eq_true (by rw [hsid]; exact hne.1))
    · exact mem_stepIds_filter ir _ _ hold.2
        (fun s _ hsid => decide_eq_true (by rw [hsid]; exact hne.2))

/-- Applying an endpoint-safe fix list preserves edge-endpoint validity. -/
lemma edgesValid_applyFixes :
    ∀ (fixes : List Fix) (ir : WorkflowIR), ir.edgesValid = true →
      fixesOk ir fixes = true → (applyFixes ir fixes).edgesValid = true := by
  intro fixes
  induction fixes with
  | nil => intro ir hv _; simpa [applyFixes] using hv
  | cons f fs ih =>
    intro ir hv hok
    simp only [fixesOk, Bool.and_eq_true] at hok
    have h1 := edgesValid_applyFix ir f hv hok.1
    simpa [applyFixes] using ih (applyFix ir f) h1 hok.2

/-! ## Claims C1 and C10 -/

/-- C1 (amended). For every `WorkflowIR`, every edge's `source_id` and
`target_id` is the id of the trigger or of some step: constructing a
`WorkflowIR` that violates this raises a validation error, and the property
is preserved by `Iterator.apply_fixes` provided every `add_edge` patch
names endpoints that exist in the IR state it is applied to. (Unrestricted
`add_edge` patches do not preserve the property, because mutation bypasses
the pydantic validator; see the counterexample.) -/
theorem C1_edge_endpoint_validity :
    (∀ (name : String) (trigger : StepSpec) (steps : List StepSpec) (edges : List EdgeSpec),
      WorkflowIR.edgesValid { name := name, trigger := trigger, steps := steps, edges := edges } = false →
      ∃ msg, WorkflowIR.make name trigger steps edges = Except.error msg) ∧
    (∀ (ir : WorkflowIR) (fixes : List Fix), ir.edgesValid = true →
      fixesOk ir fixes = true → (applyFixes ir fixes).edgesValid = true) := by
  constructor
  · intro name trigger steps edges hbad
    have hex : ∃ e ∈ edges,
        ((trigger.id :: steps.map (fun s => s.id)).contains e.source_id &&
         (trigger.id :: steps.map (fun s => s.id)).contains e.target_id) = false := by
      by_contra hall
      push_neg at hall
      have : WorkflowIR.edgesValid
          { name := name, trigger := trigger, steps := steps, edges := edges } = true := by
        simp only [WorkflowIR.edgesValid, WorkflowIR.stepIds, List.all_eq_true]
        intro e he
        have := hall e he
        revert this
        cases ((trigger.id :: steps.map (fun s => s.id)).contains e.source_id &&
          (trigger.id :: steps.map (fun s => s.id)).contains e.target_id) <;> simp
      rw [this] at hbad
      cases hbad
    obtain ⟨e, he, hpe⟩ := hex
    have hq : (edges.find? (fun e =>
        !((trigger.id :: steps.map (fun s => s.id)).contains e.source_id) ||
        !((trigger.id :: steps.map (fun s => s.id)).contains e.target_id))).isSome := by
      rw [List.find?_isSome]
      refine ⟨e, he, ?_⟩
      revert hpe
      cases h1 : (trigger.id :: steps.map (fun s => s.id)).contains e.source_id <;>
        cases h2 : (trigger.id :: steps.map (fun s => s.id)).contains e.target_id <;> simp
    obtain ⟨e0, hfind⟩ := Option.isSome_iff_exists.mp hq
    refine ⟨if (trigger.id :: steps.map (fun s => s.id)).contains e0.source_id = true
              then "Edge target not found" else "Edge source not found", ?_⟩
    simp only [WorkflowIR.make, hfind]
  · intro ir fixes hv hok
    exact edgesValid_applyFixes fixes ir hv hok

/-- Witness for C1: the constructor part applied to an IR with an edge to a
nonexistent id, and the preservation part applied to a one-step IR with an
endpoint-safe `add_edge` fix. -/
theorem C1_edge_endpoint_validity_witness :
    (∃ msg, WorkflowIR.make "w"
      { id := "t", name := "Trig", type := StepType.trigger, n8n_node_type := "n8n-nodes-base.webhook" }
      []
      [{ id := "e1", source_id := "t", target_id := "ghost" }] = Except.error msg) ∧
    (applyFixes
      { name := "w",
        trigger := { id := "t", name := "Trig", type := StepType.trigger,
                     n8n_node_type := "n8n-nodes-base.webhook" },
        steps := [{ id := "s1", name := "Act", type := StepType.action,
                    n8n_node_type := "n8n-nodes-base.set" }],
        edges := [{ id := "e1", source_id := "t", target_id := "s1" }] }
      [Fix.add_edge "s1" "t"]).edgesValid = true := by
  refine ⟨C1_edge_endpoint_validity.1 "w" _ _ _ (by decide), ?_⟩
  exact C1_edge_endpoint_validity.2 _ _ (by decide) (by decide)

/-- Counterexample for C1 as stated: `apply_fixes` does not preserve edge
validity; an `add_edge` patch naming the nonexistent id "ghost" leaves the
IR with a dangling edge, because list mutation bypasses the validator. -/
theorem C1_counterexample :
    (WorkflowIR.edgesValid
      { name := "w",
        trigger := { id := "t", name := "Trig", type := StepType.trigger,
                     n8n_node_type := "n8n-nodes-base.webhook" },
        steps := [{ id := "s1", name := "Act", type := StepType.action,
                    n8n_node_type := "n8n-nodes-base.set" }],
        edges := [{ id := "e1", source_id := "t", target_id := "s1" }] } = true) ∧
    (applyFixes
      { name := "w",
        trigger := { id := "t", name := "Trig", type := StepType.trigger,
                     n8n_node_type := "n8n-nodes-base.webhook" },
        steps := [{ id := "s1", name := "Act", type := StepType.action,
                    n8n_node_type := "n8n-nodes-base.set" }],
        edges := [{ id := "e1", source_id := "t", target_id := "s1" }] }
      [Fix.add_edge "s1" "ghost"]).edgesValid = false := by
  constructor <;> decide

/-- C10 (amended). A `StepSpec` of type `agent` must carry an `AgentSpec`:
constructing an agent-type step with `agent = None` is rejected with a
validation error, and any successfully constructed step of type `agent`
carries an `AgentSpec`. (Steps of other types may also carry an
`AgentSpec`; the validator only enforces the "required if agent"
direction, see the counterexample.) -/
theorem C10_agent_required :
    ∀ (id name : String) (ty : StepType) (agent : Option AgentSpec) (nodeType : String),
      (ty = StepType.agent ∧ agent = none →
        StepSpec.make id name ty agent nodeType =
          Except.error "Agent specification required for AGENT type steps") ∧
      (∀ s, StepSpec.make id name ty agent nodeType = Except.ok s →
        s.type = StepType.agent → s.agent ≠ none) := by
  intro id name ty agent nodeType
  constructor
  · intro h
    simp only [StepSpec.make, if_pos h]
  · intro s hs hty hnone
    by_cases h : ty = StepType.agent ∧ agent = none
    · rw [StepSpec.make, if_pos h] at hs
      cases hs
    · rw [StepSpec.make, if_neg h] at hs
      cases hs
      exact h ⟨hty, hnone⟩

/-- Witness for C10: the rejection applied to a concrete agent step without
an `AgentSpec`, and the guarantee applied to a concrete agent step with
one. -/
theorem C10_agent_required_witness :
    StepSpec.make "a1" "Agent step" StepType.agent none "t" =
      Except.error "Agent specification required for AGENT type steps" ∧
    ({ id := "a2", name := "A", type := StepType.agent,
       agent := some { name := "x", role := "r" }, n8n_node_type := "t" } : StepSpec).agent ≠ none := by
  refine ⟨(C10_agent_required "a1" "Agent step" StepType.agent none "t").1 ⟨rfl, rfl⟩, ?_⟩
  exact (C10_agent_required "a2" "A" StepType.agent (some { name := "x", role := "r" }) "t").2
    _ rfl rfl

/-- Counterexample for C10 as stated: a step of type `action` carrying an
`AgentSpec` is accepted by the validator, so it is not true that only
agent-type steps carry an `AgentSpec`. -/
theorem C10_counterexample :
    StepSpec.make "s1" "Classify" StepType.action
      (some { name := "helper", role := "assist" }) "n8n-nodes-base.set" =
      Except.ok { id := "s1", name := "Classify", type := StepType.action,
                  agent := some { name := "helper", role := "assist" },
                  n8n_node_type := "n8n-nodes-base.set" } := rfl

/-! ## Aggregator graph repair (`app/roma/aggregator.py`) -/

/-- Inner loop of the BFS in `_ensure_reachability`: visit every target of
`cur` (in edge order, as recorded by the `edge_sources` adjacency map) and
add each unseen target to the reachable set and the queue. The state is
`(reachable, queue)`. -/
def bfsVisit (edges : List EdgeSpec) (cur : String)
    (st : List String × List String) : List String × List String :=
  ((edges.filter (fun e => e.source_id = cur)).map (fun e => e.target_id)).foldl
    (fun p t => if p.1.contains t then p else (p.1 ++ [t], p.2 ++ [t])) st

/-- Fuelled BFS worklist loop of `_ensure_reachability` (`while queue:`).
Each recursive call pops the queue head. -/
def bfsAux (edges : List EdgeSpec) : Nat → List String → List String → List String
  | 0, reachable, _ => reachable
  | _ + 1, reachable, [] => reachable
  | fuel + 1, reachable, cur :: queue =>
    let st := bfsVisit edges cur (reachable, queue)
    bfsAux edges fuel st.1 st.2

/-- The reachable set computed by the BFS of `_ensure_reachability`,
starting from `{start}` with queue `[start]`. The fuel `edges.length + 1`
bounds the number of pops: an id enters the queue at most once (it is added
to the reachable set at the same time), and at most `1 + edges.length` ids
ever do, so the python loop performs no more pops than this. -/
def bfsReachable (edges : List EdgeSpec) (start : String) : List String :=
  bfsAux edges (edges.length + 1) [start] [start]

/-- The synthetic connecting edges of `_ensure_reachability`: each pending
unreachable step is chained from the previous one, starting at the last
reachable step. -/
def chainConnect (lastReachable : String) : List StepSpec → List EdgeSpec
  | [] => []
  | s :: rest =>
    { id := "", source_id := lastReachable, target_id := s.id,
      label := some ("auto_" ++ lastReachable ++ "_to_" ++ s.id) } ::
    chainConnect s.id rest

/-- `Aggregator._ensure_reachability`: BFS from the trigger; every step not
reached gets a synthetic edge from the last-reached step in declaration
order, appended iteratively (the synthesized uuid edge ids are never read
and are supplied as `""`). -/
def ensureReachability (trigger : StepSpec) (steps : List StepSpec)
    (edges : List EdgeSpec) : List EdgeSpec :=
  if steps.isEmpty then edges
  else
    let reachable := bfsReachable edges trigger.id
    let unreachable := steps.filter (fun s => !(reachable.contains s.id))
    let lastReachable := steps.foldl
      (fun acc s => if reachable.contains s.id then s.id else acc) trigger.id
    edges ++ chainConnect lastReachable unreachable

/-- One edge step of the IR graph: some edge connects `x` to `y`. -/
def EdgeStep (edges : List EdgeSpec) (x y : String) : Prop :=
  ∃ e ∈ edges, e.source_id = x ∧ e.target_id = y

/-- Graph reachability over an edge list: the reflexive-transitive closure
of `EdgeStep`; this is exactly the relation whose image from a start node a
BFS over `edges` computes. -/
def Reach (edges : List EdgeSpec) (x y : String) : Prop :=
  Relation.ReflTransGen (EdgeStep edges) x y

/-- The condition label of the `i`-th fan-out edge in
`_fix_branching_topology`: `conditions[i].get("name") or
conditions[i].get("value")`, with python truthiness (an empty-string name
falls through to the value). -/
def condLabel (conds : List BranchCond) (i : Nat) : Option String :=
  match conds.get? i with
  | none => none
  | some c =>
    match c.name with
    | some n => if n = "" then c.value else some n
    | none => c.value

/-- Fan-out edges from a branch node to its parallel candidates, with
positional output names and condition labels. -/
def fanOutEdges (branch : StepSpec) (candidates : List StepSpec) : List EdgeSpec :=
  (candidates.enum).map (fun p =>
    { id := "", source_id := branch.id, target_id := p.2.id,
      source_output := "output" ++ toString p.1,
      condition := condLabel branch.branch_conditions p.1 })

/-- Fan-in edges from the parallel candidates into the merge node, skipping
candidates already connected to it in the original edge list. -/
def fanInEdges (edges : List EdgeSpec) (merge : StepSpec)
    (candidates : List StepSpec) : List EdgeSpec :=
  (candidates.filter (fun c =>
      !(edges.any (fun e => e.source_id = c.id ∧ e.target_id = merge.id)))).map
    (fun c => { id := "", source_id := c.id, target_id := merge.id })

/-- Per-branch-node body of the loop in `_fix_branching_topology`,
accumulating `(new_edges, edges_to_remove)`. -/
def fixBranchStep (steps : List StepSpec) (edges : List EdgeSpec)
    (acc : List EdgeSpec × List String) (p : Nat × StepSpec) :
    List EdgeSpec × List String :=
  let branchIdx := p.1
  let branchNode := p.2
  let branchOutgoing := edges.filter (fun e => e.source_id = branchNode.id)
  let mergeEntry := (steps.enum.filter (fun q => q.2.type = StepType.merge)).find?
    (fun q => branchIdx < q.1)
  let candidates :=
    match mergeEntry with
    | some q => (steps.drop (branchIdx + 1)).take (q.1 - (branchIdx + 1))
    | none => steps.drop (branchIdx + 1)
  if candidates.length ≤ branchOutgoing.length ∧ 1 < candidates.length then acc
  else
    let parallelIds := candidates.map (fun s => s.id)
    let removed := (edges.filter (fun e =>
        parallelIds.contains e.source_id && parallelIds.contains e.target_id)).map
      (fun e => e.id)
    let newOut := fanOutEdges branchNode candidates
    let newIn :=
      match mergeEntry with
      | some q => fanInEdges edges q.2 candidates
      | none => []
    (acc.1 ++ newOut ++ newIn, acc.2 ++ removed)

/-- `Aggregator._fix_branching_topology`: for each branch node, locate the
next merge node in list order, treat the steps strictly between them as
parallel candidates, drop edges chaining candidates together, synthesize
the fan-out and fan-in edges, and finally filter the removed edges and
append the new ones with `(source, target)` de-duplication. -/
def fixBranchingTopology (trigger : StepSpec) (steps : List StepSpec)
    (edges : List EdgeSpec) : List EdgeSpec :=
  if steps.isEmpty then edges
  else
    let branchNodes := steps.enum.filter (fun p => p.2.type = StepType.branch)
    if branchNodes.isEmpty then edges
    else
      let acc := branchNodes.foldl (fixBranchStep steps edges) ([], [])
      let fixed := edges.filter (fun e => !(acc.2.contains e.id))
      acc.1.foldl
        (fun fixedAcc ne =>
          if fixedAcc.any (fun e => e.source_id = ne.source_id ∧ e.target_id = ne.target_id)
          then fixedAcc
          else fixedAcc ++ [ne])
        fixed

/-! ## Claim C2: reachability repair -/

/-- Reachability is monotone in the edge list. -/
lemma reach_mono (edges extra : List EdgeSpec) (x y : String)
    (h : Reach edges x y) : Reach (edges ++ extra) x y := by
  refine Relation.ReflTransGen.mono ?_ h
  intro a b hab
  obtain ⟨e, he, h1, h2⟩ := hab
  exact ⟨e, List.mem_append_left _ he, h1, h2⟩

/-- The BFS visiting fold preserves any predicate that holds of the state
and of all visited targets. -/
lemma visit_foldl_inv (P : String → Prop) :
    ∀ (ts : List String), (∀ t ∈ ts, P t) →
      ∀ st : List String × List String, (∀ x ∈ st.1, P x) → (∀ x ∈ st.2, P x) →
      (∀ x ∈ (ts.foldl
        (fun p t => if p.1.contains t then p else (p.1 ++ [t], p.2 ++ [t])) st).1, P x) ∧
      (∀ x ∈ (ts.foldl
        (fun p t => if p.1.contains t then p else (p.1 ++ [t], p.2 ++ [t])) st).2, P x) := by
  intro ts
  induction ts with
  | nil => exact fun _ st h1 h2 => ⟨h1, h2⟩
  | cons t ts ih =>
    intro hts st h1 h2
    simp only [List.foldl_cons]
    have hnext :
        (∀ x ∈ (if st.1.contains t then st else (st.1 ++ [t], st.2 ++ [t])).1, P x) ∧
        (∀ x ∈ (if st.1.contains t then st else (st.1 ++ [t], st.2 ++ [t])).2, P x) := by
      by_cases hc : st.1.contains t = true
      · rw [if_pos hc]; exact ⟨h1, h2⟩
      · rw [if_neg hc]
        constructor
        · intro x hx
          rcases List.mem_append.mp hx with hx | hx
          · exact h1 x hx
          · rcases List.mem_singleton.mp hx with rfl
            exact hts _ (List.mem_cons_self _ _)
        · intro x hx
          rcases List.mem_append.mp hx with hx | hx
          · exact h2 x hx
          · rcases List.mem_singleton.mp hx with rfl
            exact hts _ (List.mem_cons_self _ _)
    exact ih (fun u hu => hts u (List.mem_cons_of_mem _ hu)) _ hnext.1 hnext.2

/-- Soundness of the BFS loop: everything it collects is reachable via the
edges, provided the initial reachable set and queue are. -/
lemma bfsAux_sound (edges : List EdgeSpec) (start : String) :
    ∀ (fuel : Nat) (reachable queue : List String),
      (∀ x ∈ reachable, Reach edges start x) →
      (∀ x ∈ queue, Reach edges start x) →
      ∀ x ∈ bfsAux edges fuel reachable queue, Reach edges start x := by
  intro fuel
  induction fuel with
  | zero => intro r q h1 _ x hx; exact h1 x hx
  | succ n ih =>
    intro r q h1 h2
    cases q with
    | nil => intro x hx; exact h1 x hx
    | cons cur rest =>
      have hcur : Reach edges start cur := h2 cur (List.mem_cons_self _ _)
      have htargets : ∀ t ∈ (edges.filter (fun e => e.source_id = cur)).map
          (fun e => e.target_id), Reach edges start t := by
        intro t ht
        obtain ⟨e, hef, hte⟩ := List.mem_map.mp ht
        have he := List.mem_filter.mp hef
        exact hcur.tail ⟨e, he.1, of_decide_eq_true he.2, hte⟩
      have hrest : ∀ x ∈ rest, Reach edges start x :=
        fun x hx => h2 x (List.mem_cons_of_mem _ hx)
      have hinv := visit_foldl_inv (Reach edges start) _ htargets (r, rest) h1 hrest
      intro x hx
      rw [bfsAux] at hx
      exact ih _ _ hinv.1 hinv.2 x hx

/-- Soundness of `bfsReachable`. -/
lemma bfsReachable_sound (edges : List EdgeSpec) (start : String) :
    ∀ x ∈ bfsReachable edges start, Reach edges start x := by
  apply bfsAux_sound
  · intro x hx
    rcases List.mem_singleton.mp hx with rfl
    exact Relation.ReflTransGen.refl
  · intro x hx
    rcases List.mem_singleton.mp hx with rfl
    exact Relation.ReflTransGen.refl

/-- Every step chained by `chainConnect` becomes reachable in any edge list
containing the chain, starting from a reachable chain head. -/
lemma chain_reach (E : List EdgeSpec) (start : String) :
    ∀ (pending : List StepSpec) (last : String),
      Reach E start last →
      (∀ e ∈ chainConnect last pending, e ∈ E) →
      ∀ s ∈ pending, Reach E start s.id := by
  intro pending
  induction pending with
  | nil => intro last _ _ s hs; cases hs
  | cons s rest ih =>
    intro last hlast hsub u hu
    have hedge := hsub _ (by rw [chainConnect]; exact List.mem_cons_self _ _)
    have hsid : Reach E start s.id := hlast.tail ⟨_, hedge, rfl, rfl⟩
    rcases List.mem_cons.mp hu with rfl | hu
    · exact hsid
    · exact ih s.id hsid
        (fun e he => hsub e (by rw [chainConnect]; exact List.mem_cons_of_mem _ he)) u hu

/-- The last-reachable fold of `_ensure_reachability` lands on a reachable
node. -/
lemma foldl_lastReachable_reach (edges : List EdgeSpec) (start : String)
    (reachable : List String) (hreach : ∀ x ∈ reachable, Reach edges start x) :
    ∀ (steps : List StepSpec) (init : String), Reach edges start init →
      Reach edges start (steps.foldl
        (fun acc s => if reachable.contains s.id then s.id else acc) init) := by
  intro steps
  induction steps with
  | nil => intro init h; exact h
  | cons s rest ih =>
    intro init h
    simp only [List.foldl_cons]
    by_cases hc : reachable.contains s.id = true
    · exact ih _ (by rw [if_pos hc]; exact hreach _ (List.elem_iff.mp hc))
    · exact ih _ (by rw [if_neg hc]; exact h)

/-- C2. After `_ensure_reachability` returns, every step is reachable from
the trigger over the returned edges (the relation a BFS from the trigger
computes), and in particular every non-trigger step has at least one
incoming edge. -/
theorem C2_reachability_repair :
    ∀ (trigger : StepSpec) (steps : List StepSpec) (edges : List EdgeSpec),
      (∀ s ∈ steps, Reach (ensureReachability trigger steps edges) trigger.id s.id) ∧
      (∀ s ∈ steps, s.id ≠ trigger.id →
        ∃ e ∈ ensureReachability trigger steps edges, e.target_id = s.id) := by
  intro trigger steps edges
  by_cases hempty : steps.isEmpty = true
  · rw [List.isEmpty_iff] at hempty
    subst hempty
    exact ⟨fun s hs => absurd hs (List.not_mem_nil s), fun s hs => absurd hs (List.not_mem_nil s)⟩
  · have hres : ensureReachability trigger steps edges =
        edges ++ chainConnect
          (steps.foldl (fun acc s =>
            if (bfsReachable edges trigger.id).contains s.id then s.id else acc) trigger.id)
          (steps.filter (fun s => !((bfsReachable edges trigger.id).contains s.id))) := by
      simp only [ensureReachability, if_neg hempty]
    have hsound := bfsReachable_sound edges trigger.id
    have hlast : Reach edges trigger.id
        (steps.foldl (fun acc s =>
          if (bfsReachable edges trigger.id).contains s.id then s.id else acc) trigger.id) :=
      foldl_lastReachable_reach edges trigger.id _ hsound steps trigger.id
        Relation.ReflTransGen.refl
    have hpart1 : ∀ s ∈ steps,
        Reach (ensureReachability trigger steps edges) trigger.id s.id := by
      intro s hs
      rw [hres]
      by_cases hc : (bfsReachable edges trigger.id).contains s.id = true
      · exact reach_mono _ _ _ _ (hsound _ (List.elem_iff.mp hc))
      · have hu : s ∈ steps.filter
            (fun s => !((bfsReachable edges trigger.id).contains s.id)) :=
          List.mem_filter.mpr ⟨hs, by rw [Bool.not_eq_true] at hc; rw [hc]; rfl⟩
        exact chain_reach _ _ _ _ (reach_mono _ _ _ _ hlast)
          (fun e he => List.mem_append_right _ he) s hu
    refine ⟨hpart1, ?_⟩
    intro s hs hne
    rcases Relation.ReflTransGen.cases_tail (hpart1 s hs) with heq | ⟨c, _, hstep⟩
    · exact absurd heq hne
    · obtain ⟨e, he, _, h2⟩ := hstep
      exact ⟨e, he, h2⟩

/-- Witness for C2: a two-step workflow where only the first step is wired;
the repair makes the second step reachable and gives it an incoming edge. -/
theorem C2_reachability_repair_witness :
    (Reach (ensureReachability
        { id := "t", name := "Trig", type := StepType.trigger,
          n8n_node_type := "n8n-nodes-base.webhook" }
        [{ id := "s1", name := "A", type := StepType.action, n8n_node_type := "n8n-nodes-base.set" },
         { id := "s2", name := "B", type := StepType.action, n8n_node_type := "n8n-nodes-base.set" }]
        [{ id := "e1", source_id := "t", target_id := "s1" }])
      "t" "s2") ∧
    (∃ e ∈ ensureReachability
        { id := "t", name := "Trig", type := StepType.trigger,
          n8n_node_type := "n8n-nodes-base.webhook" }
        [{ id := "s1", name := "A", type := StepType.action, n8n_node_type := "n8n-nodes-base.set" },
         { id := "s2", name := "B", type := StepType.action, n8n_node_type := "n8n-nodes-base.set" }]
        [{ id := "e1", source_id := "t", target_id := "s1" }],
      e.target_id = "s2") := by
  constructor
  · exact (C2_reachability_repair _ _ _).1
      { id := "s2", name := "B", type := StepType.action, n8n_node_type := "n8n-nodes-base.set" }
      (by simp)
  · exact (C2_reachability_repair _ _ _).2
      { id := "s2", name := "B", type := StepType.action, n8n_node_type := "n8n-nodes-base.set" }
      (by simp) (by decide)

/-! ## Claim C4: branch/merge topology repair -/

/-- Exact result of `_fix_branching_topology` on the mis-chained
branch scenario: a branch step, two parallel candidates wrongly chained
linearly, and a merge step. The chaining edge between the candidates is
removed; the fan-out edge to the second candidate and the fan-in edge from
the first candidate are synthesized; the existing `branch -> c1` and
`c2 -> merge` edges are kept (the fan-out to `c1` and fan-in from `c2` are
de-duplicated against them). -/
lemma fixBranchingTopology_scenario (tr b c1 c2 m : StepSpec) (e1 e2 e3 : EdgeSpec)
    (hb : b.type = StepType.branch) (hm : m.type = StepType.merge)
    (hc1b : c1.type ≠ StepType.branch) (hc1m : c1.type ≠ StepType.merge)
    (hc2b : c2.type ≠ StepType.branch) (hc2m : c2.type ≠ StepType.merge)
    (hbc1 : b.id ≠ c1.id) (hbc2 : b.id ≠ c2.id)
    (hc1c2 : c1.id ≠ c2.id) (hc1m2 : c1.id ≠ m.id) (hc2m2 : c2.id ≠ m.id)
    (he1 : e1.source_id = b.id) (he1t : e1.target_id = c1.id)
    (he2 : e2.source_id = c1.id) (he2t : e2.target_id = c2.id)
    (he3 : e3.source_id = c2.id) (he3t : e3.target_id = m.id)
    (hid12 : e1.id ≠ e2.id) (hid32 : e3.id ≠ e2.id) :
    fixBranchingTopology tr [b, c1, c2, m] [e1, e2, e3] =
      [e1, e3,
       { id := "", source_id := b.id, target_id := c2.id, source_output := "output1",
         condition := condLabel b.branch_conditions 1 },
       { id := "", source_id := c1.id, target_id := m.id }] := by
  simp [fixBranchingTopology, fixBranchStep, fanOutEdges, fanInEdges,
    List.enum, List.enumFrom, List.isEmpty, List.filter, List.find?, List.foldl,
    List.map, List.take, List.drop, List.any, List.contains, List.elem,
    hb, hm, hc1b, hc1m, hc2b, hc2m, he1, he1t, he2, he2t, he3, he3t,
    hbc1, hbc2, hc1c2, hc1m2, hc2m2, hid12, hid32,
    Ne.symm hbc1, Ne.symm hbc2, Ne.symm hc1c2, Ne.symm hc1m2, Ne.symm hc2m2,
    Ne.symm hid12, Ne.symm hid32]
  rfl

/-- C4. Given a branch step followed in list order by exactly two parallel
candidate steps and a merge step, with edges wrongly chaining
`branch -> c1`, `c1 -> c2`, `c2 -> merge`, the repaired edge set gives the
branch exactly two outgoing edges (one per candidate), the merge exactly
two incoming edges (one per candidate), and contains no edge between the
two candidates. -/
theorem C4_branch_topology_repair (tr b c1 c2 m : StepSpec) (e1 e2 e3 : EdgeSpec)
    (hb : b.type = StepType.branch) (hm : m.type = StepType.merge)
    (hc1b : c1.type ≠ StepType.branch) (hc1m : c1.type ≠ StepType.merge)
    (hc2b : c2.type ≠ StepType.branch) (hc2m : c2.type ≠ StepType.merge)
    (hbc1 : b.id ≠ c1.id) (hbc2 : b.id ≠ c2.id) (hbm : b.id ≠ m.id)
    (hc1c2 : c1.id ≠ c2.id) (hc1m2 : c1.id ≠ m.id) (hc2m2 : c2.id ≠ m.id)
    (he1 : e1.source_id = b.id) (he1t : e1.target_id = c1.id)
    (he2 : e2.source_id = c1.id) (he2t : e2.target_id = c2.id)
    (he3 : e3.source_id = c2.id) (he3t : e3.target_id = m.id)
    (hid12 : e1.id ≠ e2.id) (hid32 : e3.id ≠ e2.id) :
    ((fixBranchingTopology tr [b, c1, c2, m] [e1, e2, e3]).filter
        (fun e => e.source_id = b.id)).length = 2 ∧
    ((fixBranchingTopology tr [b, c1, c2, m] [e1, e2, e3]).filter
        (fun e => e.target_id = m.id)).length = 2 ∧
    ((fixBranchingTopology tr [b, c1, c2, m] [e1, e2, e3]).filter
        (fun e => e.source_id = b.id ∧ e.target_id = c1.id)).length = 1 ∧
    ((fixBranchingTopology tr [b, c1, c2, m] [e1, e2, e3]).filter
        (fun e => e.source_id = b.id ∧ e.target_id = c2.id)).length = 1 ∧
    ((fixBranchingTopology tr [b, c1, c2, m] [e1, e2, e3]).filter
        (fun e => e.source_id = c1.id ∧ e.target_id = m.id)).length = 1 ∧
    ((fixBranchingTopology tr [b, c1, c2, m] [e1, e2, e3]).filter
        (fun e => e.source_id = c2.id ∧ e.target_id = m.id)).length = 1 ∧
    (∀ e ∈ fixBranchingTopology tr [b, c1, c2, m] [e1, e2, e3],
      ¬(e.source_id = c1.id ∧ e.target_id = c2.id) ∧
      ¬(e.source_id = c2.id ∧ e.target_id = c1.id)) := by
  rw [fixBranchingTopology_scenario tr b c1 c2 m e1 e2 e3 hb hm hc1b hc1m hc2b hc2m
    hbc1 hbc2 hc1c2 hc1m2 hc2m2 he1 he1t he2 he2t he3 he3t hid12 hid32]
  refine ⟨?_, ?_, ?_, ?_, ?_, ?_, ?_⟩ <;>
    simp [List.filter, he1, he1t, he2, he2t, he3, he3t,
      hbc1, hbc2, hbm, hc1c2, hc1m2, hc2m2,
      Ne.symm hbc1, Ne.symm hbc2, Ne.symm hbm, Ne.symm hc1c2, Ne.symm hc1m2,
      Ne.symm hc2m2]

/-- Witness for C4: the scenario instantiated with concrete ids. -/
theorem C4_branch_topology_repair_witness :
    ((fixBranchingTopology
        { id := "t", name := "Trig", type := StepType.trigger, n8n_node_type := "w" }
        [{ id := "b", name := "Branch", type := StepType.branch, n8n_node_type := "sw" },
         { id := "c1", name := "P1", type := StepType.action, n8n_node_type := "s" },
         { id := "c2", name := "P2", type := StepType.action, n8n_node_type := "s" },
         { id := "m", name := "Merge", type := StepType.merge, n8n_node_type := "mg" }]
        [{ id := "e1", source_id := "b", target_id := "c1" },
         { id := "e2", source_id := "c1", target_id := "c2" },
         { id := "e3", source_id := "c2", target_id := "m" }]).filter
      (fun e => e.source_id = "b")).length = 2 := by
  have h := C4_branch_topology_repair
    { id := "t", name := "Trig", type := StepType.trigger, n8n_node_type := "w" }
    { id := "b", name := "Branch", type := StepType.branch, n8n_node_type := "sw" }
    { id := "c1", name := "P1", type := StepType.action, n8n_node_type := "s" }
    { id := "c2", name := "P2", type := StepType.action, n8n_node_type := "s" }
    { id := "m", name := "Merge", type := StepType.merge, n8n_node_type := "mg" }
    { id := "e1", source_id := "b", target_id := "c1" }
    { id := "e2", source_id := "c1", target_id := "c2" }
    { id := "e3", source_id := "c2", target_id := "m" }
    rfl rfl (by decide) (by decide) (by decide) (by decide) (by decide) (by decide)
    (by decide) (by decide) (by decide) (by decide) rfl rfl rfl rfl rfl rfl
    (by decide) (by decide)
  exact h.1

/-! ## Claim C5: scheduler leveling (`app/roma/planner.py`, `can_parallelize`) -/

/-- One synthesis subtask (`TaskNode` in `app/models/task_tree.py`); only
the fields read by `can_parallelize` are carried: `id` and `depends_on`. -/
structure TaskNode where
  id : String
  depends_on : List String := []
deriving DecidableEq, Repr

/-- Fuelled embedding of `get_level` in `Planner.can_parallelize`:
`level = 0` for tasks without dependencies, otherwise
`max(dep_levels, default=-1) + 1` where `dep_levels` collects the levels of
the dependencies found in the task list. Under the DAG assumption the
python recursion never revisits a task, so fuel larger than the longest
dependency chain (in particular `tasks.length`) computes the same value;
fuel exhaustion corresponds to the cycle guard returning 0. -/
def taskLevel (tasks : List TaskNode) : Nat → TaskNode → Nat
  | 0, _ => 0
  | fuel + 1, t =>
    if t.depends_on.isEmpty then 0
    else
      let depLevels := t.depends_on.filterMap
        (fun d => (tasks.find? (fun u => u.id = d)).map (taskLevel tasks fuel))
      match depLevels with
      | [] => 0
      | _ => depLevels.foldr max 0 + 1

/-- `Planner.can_parallelize`: group the tasks by level and return the
groups by ascending level (python's insertion-ordered `level_groups` dict
read back with `sorted(level_groups.keys())`). -/
def canParallelize (tasks : List TaskNode) : List (List TaskNode) :=
  if tasks.isEmpty then []
  else
    let L := taskLevel tasks tasks.length
    let levels := ((tasks.map L).dedup).mergeSort (fun a b => a ≤ b)
    levels.map (fun l => tasks.filter (fun t => L t = l))

/-- Any member of a `Nat` list is bounded by its `foldr max 0`. -/
lemma le_foldr_max (l : List Nat) (a : Nat) (h : a ∈ l) : a ≤ l.foldr max 0 := by
  induction l with
  | nil => cases h
  | cons b l ih =>
    rcases List.mem_cons.mp h with rfl | h
    · exact le_max_left _ _
    · exact le_trans (ih h) (le_max_right _ _)

/-- A successful `find?` over the task list yields a member with the sought
id. -/
lemma find?_task (tasks : List TaskNode) (d : String) (u : TaskNode)
    (h : tasks.find? (fun u => u.id = d) = some u) : u ∈ tasks ∧ u.id = d := by
  refine ⟨List.mem_of_find?_eq_some h, ?_⟩
  have := List.find?_some h
  exact of_decide_eq_true this

/-- The leveling hypotheses of claim C5: `rank` witnesses that `depends_on`
forms a DAG over the listed tasks, every dependency id names a listed task,
and task ids are unique. -/
def LevelingOk (tasks : List TaskNode) (rank : String → Nat) : Prop :=
  (∀ t ∈ tasks, ∀ d ∈ t.depends_on, ∃ u ∈ tasks, u.id = d) ∧
  (∀ t ∈ tasks, ∀ d ∈ t.depends_on, ∀ u ∈ tasks, u.id = d → rank u.id < rank t.id) ∧
  (∀ t ∈ tasks, rank t.id < tasks.length) ∧
  (tasks.map (fun t => t.id)).Nodup

/-- Stability of the fuelled leveling: any two fuels above a task's rank
compute the same level. -/
lemma taskLevel_stable (tasks : List TaskNode) (rank : String → Nat)
    (hok : LevelingOk tasks rank) :
    ∀ (n : Nat), ∀ t ∈ tasks, rank t.id ≤ n → ∀ f g : Nat,
      rank t.id < f → rank t.id < g → taskLevel tasks f t = taskLevel tasks g t := by
  obtain ⟨hclosed, hdag, _, _⟩ := hok
  intro n
  induction n with
  | zero =>
    intro t ht hr f g hf hg
    cases f with
    | zero => exact absurd hf (Nat.not_lt_zero _)
    | succ f =>
      cases g with
      | zero => exact absurd hg (Nat.not_lt_zero _)
      | succ g =>
        by_cases hdep : t.depends_on.isEmpty
        · simp only [taskLevel, if_pos hdep]
        · exfalso
          obtain ⟨d, hd⟩ := List.exists_mem_of_ne_nil t.depends_on
            (by intro hc; rw [hc] at hdep; exact hdep rfl)
          obtain ⟨u, hu, huid⟩ := hclosed t ht d hd
          have := hdag t ht d hd u hu huid
          omega
  | succ n ih =>
    intro t ht hr f g hf hg
    cases f with
    | zero => exact absurd hf (Nat.not_lt_zero _)
    | succ f =>
      cases g with
      | zero => exact absurd hg (Nat.not_lt_zero _)
      | succ g =>
        by_cases hdep : t.depends_on.isEmpty
        · simp only [taskLevel, if_pos hdep]
        · simp only [taskLevel, if_neg hdep]
          have hmaps : t.depends_on.filterMap
              (fun d => (tasks.find? (fun u => u.id = d)).map (taskLevel tasks f)) =
              t.depends_on.filterMap
              (fun d => (tasks.find? (fun u => u.id = d)).map (taskLevel tasks g)) := by
            apply List.filterMap_congr
            intro d hd
            cases hfind : tasks.find? (fun u => u.id = d) with
            | none => rfl
            | some u =>
              obtain ⟨hu, huid⟩ := find?_task tasks d u hfind
              have hru : rank u.id < rank t.id := hdag t ht d hd u hu huid
              have : taskLevel tasks f u = taskLevel tasks g u := by
                apply ih u hu (by omega) f g <;> omega
              simp [this]
          rw [hmaps]

/-- The canonical level of one task: the fuelled leveling at the fuel used
by `canParallelize`. -/
def levelOf (tasks : List TaskNode) (t : TaskNode) : Nat :=
  taskLevel tasks tasks.length t

/-- Fixpoint equation of the leveling at full fuel: a task with
dependencies sits one above the maximum level of its (resolvable)
dependencies. -/
lemma levelOf_eq (tasks : List TaskNode) (rank : String → Nat)
    (hok : LevelingOk tasks rank) (t : TaskNode) (ht : t ∈ tasks) :
    levelOf tasks t =
      if t.depends_on.isEmpty then 0
      else
        match t.depends_on.filterMap
            (fun d => (tasks.find? (fun u => u.id = d)).map (levelOf tasks)) with
        | [] => 0
        | depLevels => depLevels.foldr max 0 + 1 := by
  obtain ⟨hclosed, hdag, hbound, hnodup⟩ := hok
  have hlen : tasks.length = (tasks.length - 1) + 1 := by
    cases tasks with
    | nil => cases ht
    | cons a l => simp
  rw [levelOf, hlen]
  simp only [taskLevel]
  by_cases hdep : t.depends_on.isEmpty
  · simp only [if_pos hdep]
  · simp only [if_neg hdep]
    have hmaps : t.depends_on.filterMap
        (fun d => (tasks.find? (fun u => u.id = d)).map (taskLevel tasks (tasks.length - 1))) =
        t.depends_on.filterMap
        (fun d => (tasks.find? (fun u => u.id = d)).map (levelOf tasks)) := by
      apply List.filterMap_congr
      intro d hd
      cases hfind : tasks.find? (fun u => u.id = d) with
      | none => rfl
      | some u =>
        obtain ⟨hu, huid⟩ := find?_task tasks d u hfind
        have hru : rank u.id < rank t.id := hdag t ht d hd u hu huid
        have hrt : rank t.id < tasks.length := hbound t ht
        have : taskLevel tasks (tasks.length - 1) u = taskLevel tasks tasks.length u := by
          apply taskLevel_stable tasks rank ⟨hclosed, hdag, hbound, hnodup⟩ (rank u.id) u hu
            (le_refl _) <;> omega
        simp [this, levelOf]
    rw [hmaps]
    generalize t.depends_on.filterMap
      (fun d => (tasks.find? (fun u => u.id = d)).map (levelOf tasks)) = dl
    cases dl with
    | nil => rfl
    | cons a l => rfl

/-- With unique ids, a dependency's level is strictly below its
dependent's level. -/
lemma levelOf_dep_lt (tasks : List TaskNode) (rank : String → Nat)
    (hok : LevelingOk tasks rank) (t : TaskNode) (ht : t ∈ tasks)
    (u : TaskNode) (hu : u ∈ tasks) (hdep : u.id ∈ t.depends_on) :
    levelOf tasks u < levelOf tasks t := by
  obtain ⟨hclosed, hdag, hbound, hnodup⟩ := hok
  rw [levelOf_eq tasks rank ⟨hclosed, hdag, hbound, hnodup⟩ t ht]
  have hne : ¬ t.depends_on.isEmpty := by
    intro hc
    rw [List.isEmpty_iff] at hc
    rw [hc] at hdep
    cases hdep
  rw [if_neg hne]
  -- the find? for u.id returns u itself (ids are unique)
  have hfind : tasks.find? (fun v => v.id = u.id) = some u := by
    cases hfind2 : tasks.find? (fun v => v.id = u.id) with
    | none =>
      exfalso
      have := List.find?_eq_none.mp hfind2 u hu
      simp at this
    | some v =>
      obtain ⟨hv, hvid⟩ := find?_task tasks u.id v hfind2
      rw [List.inj_on_of_nodup_map hnodup hv hu hvid]
  have hmem : levelOf tasks u ∈ t.depends_on.filterMap
      (fun d => (tasks.find? (fun v => v.id = d)).map (levelOf tasks)) :=
    List.mem_filterMap.mpr ⟨u.id, hdep, by rw [hfind]; rfl⟩
  cases hdl : t.depends_on.filterMap
      (fun d => (tasks.find? (fun v => v.id = d)).map (levelOf tasks)) with
  | nil => rw [hdl] at hmem; cases hmem
  | cons a l =>
    rw [hdl] at hmem
    have hle : levelOf tasks u ≤ (a :: l).foldr max 0 := le_foldr_max _ _ hmem
    exact Nat.lt_succ_of_le hle

/-- C5. For a task list whose `depends_on` relation forms a DAG over the
listed tasks (witnessed by a rank function), the leveling assigns 0 to
tasks without dependencies and `1 + max(level(d))` otherwise; consequently
every dependency sits at a strictly smaller level than its dependent, and
no two tasks grouped in the same level by `can_parallelize` depend on each
other. -/
theorem C5_leveling (tasks : List TaskNode) (rank : String → Nat)
    (hok : LevelingOk tasks rank) :
    (∀ t ∈ tasks, t.depends_on = [] → levelOf tasks t = 0) ∧
    (∀ t ∈ tasks, t.depends_on ≠ [] →
      levelOf tasks t = (t.depends_on.filterMap
        (fun d => (tasks.find? (fun u => u.id = d)).map (levelOf tasks))).foldr max 0 + 1) ∧
    (∀ t ∈ tasks, ∀ u ∈ tasks, u.id ∈ t.depends_on → levelOf tasks u < levelOf tasks t) ∧
    (∀ g ∈ canParallelize tasks, ∀ t ∈ g, ∀ u ∈ g, u.id ∉ t.depends_on) := by
  refine ⟨?_, ?_, ?_, ?_⟩
  · intro t ht hdep
    rw [levelOf_eq tasks rank hok t ht, if_pos (by rw [hdep]; rfl)]
  · intro t ht hdep
    rw [levelOf_eq tasks rank hok t ht,
      if_neg (by rw [List.isEmpty_iff]; exact hdep)]
    obtain ⟨d, hd⟩ := List.exists_mem_of_ne_nil t.depends_on hdep
    obtain ⟨u, hu, huid⟩ := hok.1 t ht d hd
    have hfind : (tasks.find? (fun v => v.id = d)).isSome := by
      rw [List.find?_isSome]
      exact ⟨u, hu, by simp [huid]⟩
    obtain ⟨v, hv⟩ := Option.isSome_iff_exists.mp hfind
    have hmem : levelOf tasks v ∈ t.depends_on.filterMap
        (fun d => (tasks.find? (fun u => u.id = d)).map (levelOf tasks)) :=
      List.mem_filterMap.mpr ⟨d, hd, by rw [hv]; rfl⟩
    cases hdl : t.depends_on.filterMap
        (fun d => (tasks.find? (fun u => u.id = d)).map (levelOf tasks)) with
    | nil => rw [hdl] at hmem; cases hmem
    | cons a l => rfl
  · intro t ht u hu hdep
    exact levelOf_dep_lt tasks rank hok t ht u hu hdep
  · intro g hg t htg u hug hdep
    by_cases hempty : tasks.isEmpty
    · rw [canParallelize, if_pos hempty] at hg
      cases hg
    · rw [canParallelize, if_neg hempty] at hg
      obtain ⟨l, _, hgl⟩ := List.mem_map.mp hg
      subst hgl
      have ht := List.mem_filter.mp htg
      have hu := List.mem_filter.mp hug
      have hlt := levelOf_dep_lt tasks rank hok t ht.1 u hu.1 hdep
      have h1 : levelOf tasks t = l := of_decide_eq_true ht.2
      have h2 : levelOf tasks u = l := of_decide_eq_true hu.2
      rw [levelOf] at h1 h2
      rw [levelOf, levelOf, h1, h2] at hlt
      exact lt_irrefl l hlt

/-- Witness for C5: a three-task chain with an explicit topological rank. -/
theorem C5_leveling_witness :
    levelOf
      [{ id := "t1", depends_on := [] }, { id := "t2", depends_on := ["t1"] },
       { id := "t3", depends_on := ["t1", "t2"] }]
      { id := "t1", depends_on := [] } = 0 ∧
    levelOf
      [{ id := "t1", depends_on := [] }, { id := "t2", depends_on := ["t1"] },
       { id := "t3", depends_on := ["t1", "t2"] }]
      { id := "t2", depends_on := ["t1"] } <
    levelOf
      [{ id := "t1", depends_on := [] }, { id := "t2", depends_on := ["t1"] },
       { id := "t3", depends_on := ["t1", "t2"] }]
      { id := "t3", depends_on := ["t1", "t2"] } := by
  have h := C5_leveling
    [{ id := "t1", depends_on := [] }, { id := "t2", depends_on := ["t1"] },
     { id := "t3", depends_on := ["t1", "t2"] }]
    (fun s => if s = "t1" then 0 else if s = "t2" then 1 else 2)
    (by constructor
        · decide
        · constructor
          · decide
          · constructor
            · decide
            · decide)
  refine ⟨h.1 { id := "t1", depends_on := [] } (by decide) rfl, ?_⟩
  exact h.2.2.1 { id := "t3", depends_on := ["t1", "t2"] } (by decide)
    { id := "t2", depends_on := ["t1"] } (by decide) (by decide)

/-! ## Claim C8: orchestrator stop conditions
(`app/roma/orchestrator.py`, `AutoIterationOrchestrator.run`) -/

/-- Decision core of the orchestrator's iteration loop. `results i` is the
pair (score, all tests passed) observed in iteration `i`; state is
`(previous_score, no_improvement_count)`, both starting at 0, and `i`
starts at 1. The stop checks appear in source order: success, then
no-improvement, then max-iterations; on a non-terminal iteration
`previous_score` is updated and the counter is reset on improvement. The
fuel mirrors `range(1, max_iterations + 1)`: the loop body runs at most
`max_iterations` times, and a zero fuel (a `max_iterations` below the
starting index) leaves the initial `"unknown"` stop reason. -/
def runIterationLoopAux (maxIterations maxNoImprovement : Nat)
    (minPassingScore : Int) (results : Nat → Int × Bool) :
    Nat → Nat → Int → Nat → Nat × String
  | 0, i, _, _ => (i - 1, "unknown")
  | fuel + 1, i, prev, cnt =>
    let score := (results i).1
    let passed := (results i).2
    if passed = true ∧ minPassingScore ≤ score then (i, "success")
    else
      if score ≤ prev then
        if maxNoImprovement ≤ cnt + 1 then (i, "no_improvement")
        else
          if maxIterations ≤ i then (i, "max_iterations")
          else runIterationLoopAux maxIterations maxNoImprovement minPassingScore
            results fuel (i + 1) score (cnt + 1)
      else
        if maxIterations ≤ i then (i, "max_iterations")
        else runIterationLoopAux maxIterations maxNoImprovement minPassingScore
          results fuel (i + 1) score 0

/-- The orchestrator loop: returns the stopping iteration number and the
stop reason. -/
def runIterationLoop (maxIterations maxNoImprovement : Nat)
    (minPassingScore : Int) (results : Nat → Int × Bool) : Nat × String :=
  runIterationLoopAux maxIterations maxNoImprovement minPassingScore results
    maxIterations 1 0 0

/-- C8. With `max_no_improvement = 2`, any `max_iterations ≥ 4`, and no
iteration meeting the success condition, score sequence 40, 55, 55, 55
stops the loop at iteration 4 with reason `"no_improvement"`: the counter
reaches 2 after the two consecutive iterations whose score does not exceed
the previous score. -/
theorem C8_stop_no_improvement (maxIterations : Nat) (minPassingScore : Int)
    (results : Nat → Int × Bool)
    (hM : 4 ≤ maxIterations)
    (h1 : results 1 = (40, false)) (h2 : results 2 = (55, false))
    (h3 : results 3 = (55, false)) (h4 : results 4 = (55, false)) :
    runIterationLoop maxIterations 2 minPassingScore results = (4, "no_improvement") := by
  obtain ⟨k, rfl⟩ : ∃ k, maxIterations = k + 4 := ⟨maxIterations - 4, by omega⟩
  show runIterationLoopAux (k + 4) 2 minPassingScore results (k + 4) 1 0 0 =
    (4, "no_improvement")
  have e4 : k + 4 = (k + 3) + 1 := by omega
  rw [e4, runIterationLoopAux]
  simp only [h1]
  rw [if_neg (by simp), if_neg (by norm_num), if_neg (by omega)]
  rw [show k + 3 = (k + 2) + 1 from rfl, runIterationLoopAux]
  simp only [h2]
  rw [if_neg (by simp), if_neg (by norm_num), if_neg (by omega)]
  rw [show k + 2 = (k + 1) + 1 from rfl, runIterationLoopAux]
  simp only [h3]
  rw [if_neg (by simp), if_pos (by norm_num), if_neg (by norm_num), if_neg (by omega)]
  rw [show k + 1 = k + 1 from rfl, runIterationLoopAux]
  simp only [h4]
  rw [if_neg (by simp), if_pos (by norm_num), if_pos (by norm_num)]

/-- Witness for C8: a concrete results table realizing the score sequence
40, 55, 55, 55 with failing tests throughout. -/
theorem C8_stop_no_improvement_witness :
    runIterationLoop 5 2 80
      (fun i => if i = 1 then (40, false) else (55, false)) = (4, "no_improvement") := by
  exact C8_stop_no_improvement 5 80
    (fun i => if i = 1 then (40, false) else (55, false))
    (by omega) rfl rfl rfl rfl

/-! ## Claim C9: invariant checkers (`app/testing/harness.py`, `_check_invariant`)

The outputs flowing through the harness are python dicts; the embedding
restricts them to string keys and string values (the only shape the
verified properties exercise), as insertion-ordered association lists with
unique keys. -/

/-- A python dict with string keys and values. -/
abbrev PyDict := List (String × String)

/-- ASCII lowercasing of one character (python `str.lower` on the ASCII
subset used by the harness). -/
def toLowerChar (c : Char) : Char :=
  if 'A' ≤ c ∧ c ≤ 'Z' then Char.ofNat (c.toNat + 32) else c

/-- ASCII `str.lower`. -/
def toLowerStr (s : String) : String :=
  String.mk (s.data.map toLowerChar)

/-- Substring search over character lists: the needle occurs at the head
of some suffix of the hay. -/
def charsContain (needle : List Char) : List Char → Bool
  | [] => needle.isEmpty
  | c :: rest => needle.isPrefixOf (c :: rest) || charsContain needle rest

/-- Python `needle in hay` on strings: substring containment. -/
def strContains (hay needle : String) : Bool :=
  charsContain needle.data hay.data

/-- Python `str(d)` for a string-valued dict:
`\x7b'k': 'v', ...\x7d` (values without embedded quotes, as produced by the
harness paths under verification). -/
def pyStrDict (d : PyDict) : String :=
  "\x7b" ++ String.intercalate ", "
    (d.map (fun kv => "'" ++ kv.1 ++ "': '" ++ kv.2 ++ "'")) ++ "\x7d"

/-- Key lookup (`dict.get`). -/
def pyGet (d : PyDict) (k : String) : Option String :=
  (d.find? (fun kv => kv.1 = k)).map (fun kv => kv.2)

/-- Python `==` on dicts (order-insensitive; dict keys are unique). -/
def pyDictEq (d1 d2 : PyDict) : Bool :=
  d1.length = d2.length && d1.all (fun kv => pyGet d2 kv.1 = some kv.2)

/-- The `config` dict of a test invariant, restricted to the keys read by
`_check_invariant`. -/
structure InvariantConfig where
  keys : List String := []
  expected_output_contains : List String := []
  branch : Option String := none
deriving DecidableEq, Repr

/-- A test invariant (`TestInvariant` in `app/models/workflow_ir.py`):
dispatch type and configuration; name and description are never read by
the checker. -/
structure TestInvariant where
  type : String
  config : InvariantConfig := {}
deriving DecidableEq, Repr

/-- `TestHarness._check_invariant` (pass/fail component; the failure-reason
string is not modelled). Python truthiness of the output (`if not
actual_output`) fails on both an absent (`None`) and an empty dict. -/
def checkInvariant (inv : TestInvariant) (actual expected : Option PyDict) : Bool :=
  if inv.type = "execution_success" then
    actual.isSome
  else if inv.type = "output_contains" then
    let expectedKeys :=
      if inv.config.keys.isEmpty then inv.config.expected_output_contains
      else inv.config.keys
    match actual with
    | none => false
    | some d =>
      if d.isEmpty then false
      else
        let outputStr := toLowerStr (pyStrDict d)
        let missing := expectedKeys.filter (fun k =>
          !(d.any (fun kv => kv.1 = k)) && !(strContains outputStr (toLowerStr k)))
        missing.isEmpty
  else if inv.type = "output_matches_schema" then
    match actual with
    | none => false
    | some d => !d.isEmpty
  else if inv.type = "output_equals" then
    match actual, expected with
    | none, none => true
    | some d1, some d2 => pyDictEq d1 d2
    | _, _ => false
  else if inv.type = "branch_taken" then
    (match actual with
     | none => none
     | some d => pyGet d "branch_taken") == inv.config.branch
  else if inv.type = "no_error" then
    match actual with
    | none => false
    | some d => !d.isEmpty && !(d.any (fun kv => kv.1 = "error"))
  else true

/-- The `output_contains` pass condition exactly as claim C9 states it:
the check passes iff the output is present and each expected token is a
top-level key of it or a case-insensitive substring of its
stringification. -/
def outputContainsSpecClaim (actual : Option PyDict) (toks : List String) : Bool :=
  match actual with
  | none => false
  | some d => toks.all (fun k =>
      d.any (fun kv => kv.1 = k) ||
      strContains (toLowerStr (pyStrDict d)) (toLowerStr k))

/-- The claim's pass condition amended minimally: an empty output dict
(falsy in python) also fails the check. -/
def outputContainsSpecAmended (actual : Option PyDict) (toks : List String) : Bool :=
  match actual with
  | none => false
  | some d =>
    !d.isEmpty && toks.all (fun k =>
      d.any (fun kv => kv.1 = k) ||
      strContains (toLowerStr (pyStrDict d)) (toLowerStr k))

/-- An emptiness-filter is empty exactly when the predicate fails
everywhere. -/
lemma filter_isEmpty_eq_all (l : List String) (p : String → Bool) :
    (l.filter p).isEmpty = l.all (fun x => !p x) := by
  induction l with
  | nil => rfl
  | cons a l ih =>
    by_cases h : p a = true
    · simp [List.filter_cons, h]
    · rw [Bool.not_eq_true] at h
      simp [List.filter_cons, h, ih]

/-- C9 (amended). The `output_contains` invariant check passes exactly
when the output is present and non-empty and each expected token is a
top-level key of the output dict or a case-insensitive substring of the
stringified output; it fails otherwise, including when the output is
absent or the output dict is empty. -/
theorem C9_output_contains (actual expected : Option PyDict) (toks : List String) :
    checkInvariant { type := "output_contains", config := { keys := toks } }
        actual expected =
      outputContainsSpecAmended actual toks := by
  cases actual with
  | none => rfl
  | some d =>
    show (if d.isEmpty then false
          else ((if toks.isEmpty then ([] : List String) else toks).filter (fun k =>
            !(d.any (fun kv => kv.1 = k)) &&
            !(strContains (toLowerStr (pyStrDict d)) (toLowerStr k)))).isEmpty) =
         (!d.isEmpty && toks.all (fun k =>
            d.any (fun kv => kv.1 = k) ||
            strContains (toLowerStr (pyStrDict d)) (toLowerStr k)))
    by_cases hd : d.isEmpty
    · rw [if_pos hd, hd]
      rfl
    · have hd' : d.isEmpty = false := eq_false_of_ne_true hd
      rw [if_neg hd, hd', filter_isEmpty_eq_all]
      by_cases hk : toks.isEmpty
      · rw [List.isEmpty_iff] at hk
        subst hk
        rfl
      · rw [if_neg hk]
        simp [Bool.not_and]

/-- Counterexample for C9 as stated: on a present but empty output dict
with an empty token list the claimed condition passes, yet the checker
fails (python truthiness treats the empty dict like a missing output). -/
theorem C9_counterexample :
    checkInvariant { type := "output_contains", config := {} } (some []) none = false ∧
    outputContainsSpecClaim (some []) [] = true := by
  constructor <;> rfl

/-! ## Compiler (`app/n8n/compiler.py`)

The compiled n8n node's `parameters` dict is modelled by the fields the
verified code paths read and write: `url` (consulted by the direct-AI-call
and Perseus-routing rewrites) and `body` (the templated JSON of
agent/registry/proxy calls). No modelled pass and no check of
`validate_compiled` inspects any other parameter key. Fresh node uuids are
supplied deterministically from the node index; no verified property
compares their values. The `agent_runner_url` setting is represented by
its hardcoded fallback value. -/

/-- An n8n connection target (`{"node": ..., "type": ..., "index": 0}`). -/
structure ConnTarget where
  node : String
  type : String
  index : Nat
deriving DecidableEq, Repr

/-- The modelled n8n node parameters. -/
structure NodeParams where
  url : Option String := none
  body : Option String := none
deriving DecidableEq, Repr

/-- One compiled n8n node: the keys emitted by `_compile_step`. -/
structure N8NNode where
  id : String
  name : String
  type : String
  typeVersion : Int
  position : Int × Int
  parameters : NodeParams
deriving DecidableEq, Repr

/-- The compiled workflow document: `name`, `nodes` and `connections`
(a `source name -> main output array` map in insertion order). -/
structure CompiledWorkflow where
  name : String
  nodes : List N8NNode
  connections : List (String × List (List ConnTarget))
deriving DecidableEq, Repr

/-- Python truthiness of an optional string (`None` and `""` are falsy). -/
def optFalsy : Option String → Bool
  | none => true
  | some s => s = ""

/-- Escape double quotes for embedding into the JSON body template
(`task_description.replace('"', '\\"')`). -/
def escapeQuotes (s : String) : String :=
  String.mk (s.data.foldr (fun c acc => if c = '"' then '\\' :: '"' :: acc else c :: acc) [])

/-- The agent-runner base URL (`settings.agent_runner_url or
"https://YOUR_AGENT_RUNNER_URL"`), modelled by its fallback. -/
def agentRunnerUrl : String := "https://YOUR_AGENT_RUNNER_URL"

/-- Render an optional string as the JSON fragment `"value"` or `null`
(`f"\"s\"" if s else "null"`, python truthiness). -/
def jsonOptValue (v : Option String) : String :=
  match v with
  | some s => if s = "" then "null" else "\"" ++ s ++ "\""
  | none => "null"

/-- The templated JSON body of `_build_agent_parameters` (`f"""={{{{
JSON.stringify({{ ... }}) }}}}"""`), as the literal string the f-string
renders. -/
def buildAgentBody (step : StepSpec) (agent : AgentSpec) : String :=
  let taskDescription := if agent.role = "" then "Process data as " ++ agent.name else agent.role
  "=\x7b\x7b JSON.stringify(\x7b\n  " ++
  ("\"agent_name\": \"" ++ agent.name ++ "\"") ++
  (",\n  \"tool_id\": " ++ jsonOptValue step.tool_id ++
   ",\n  \"capability\": " ++ jsonOptValue step.capability ++
   ",\n  \"integration_hint\": " ++ jsonOptValue step.integration_hint ++
   ",\n  \"input\": Object.assign(\x7b\x7d, ($json.body || $json), \x7b task: \"" ++
     escapeQuotes taskDescription ++ "\" \x7d)" ++
   ",\n  \"context\": \x7b\x7d,\n  \"tools_allowed\": [],\n  \"n8n_workflow_id\": $workflow.id,\n  ") ++
  ("\"node_id\": \"" ++ step.id ++ "\"") ++
  "\n\x7d) \x7d\x7d"

/-- `_build_agent_parameters`: an HTTP Request v4 call to the agent
runner whose body embeds the task descriptor. -/
def buildAgentParameters (step : StepSpec) (agent : AgentSpec) : NodeParams :=
  { url := some (agentRunnerUrl ++ "/api/agent/run"),
    body := some (buildAgentBody step agent) }

/-- The templated JSON body of `_build_registry_parameters` (same template
with the step name as agent name and the step description as task). -/
def buildRegistryBody (step : StepSpec) : String :=
  let taskDescription :=
    match step.description with
    | some d => if d = "" then step.name else d
    | none => step.name
  "=\x7b\x7b JSON.stringify(\x7b\n  " ++
  ("\"agent_name\": \"" ++ step.name ++ "\"") ++
  (",\n  \"tool_id\": " ++ jsonOptValue step.tool_id ++
   ",\n  \"capability\": " ++ jsonOptValue step.capability ++
   ",\n  \"integration_hint\": " ++ jsonOptValue step.integration_hint ++
   ",\n  \"input\": Object.assign(\x7b\x7d, ($json.body || $json), \x7b task: \"" ++
     escapeQuotes taskDescription ++ "\" \x7d)" ++
   ",\n  \"context\": \x7b\x7d,\n  \"tools_allowed\": [],\n  \"n8n_workflow_id\": $workflow.id,\n  ") ++
  ("\"node_id\": \"" ++ step.id ++ "\"") ++
  "\n\x7d) \x7d\x7d"

/-- `_build_registry_parameters`. -/
def buildRegistryParameters (step : StepSpec) : NodeParams :=
  { url := some (agentRunnerUrl ++ "/api/agent/run"),
    body := some (buildRegistryBody step) }

/-- Modelled from the spec: the signature of `resolve_tool_id`, which the
compiler imports from `app/n8n/capability_resolver.py` but whose definition
is absent from the source tree (only its callers and tests exist). Given a
capability tag and an optional integration hint it may return a dict with
`tool_id` and `api_name` entries; the embedding abstracts it as an
argument, and the claims hold for every such resolver. -/
def ToolResolver : Type :=
  String → Option String → Option (Option String × Option String)

/-- The tool-resolution mutation at the top of `_compile_step`: when
`tool_id` is falsy and `capability` truthy, look the tool up and fill in
`tool_id` (and `integration_hint` when that is falsy). -/
def applyToolResolution (rtool : ToolResolver) (step : StepSpec) : StepSpec :=
  if optFalsy step.tool_id then
    match step.capability with
    | none => step
    | some cap =>
      if cap = "" then step
      else
        match rtool cap step.integration_hint with
        | none => step
        | some (tid, aname) =>
          let s1 := { step with tool_id := tid }
          if optFalsy s1.integration_hint then { s1 with integration_hint := aname } else s1
  else step

/-- `_compile_step`: one IR step to one n8n node. A fresh node id is taken
from the supplied `nodeId`. Agent steps and registry-routed HTTP steps are
lowered to HTTP Request v4 calls to the agent runner; `itemLists` nodes are
forced to type version 3. -/
def compileStep (rtool : ToolResolver) (nodeId : String) (step0 : StepSpec) : N8NNode :=
  let step := applyToolResolution rtool step0
  let baseParams : NodeParams :=
    { url := pyGet step.parameters "url", body := pyGet step.parameters "body" }
  let typeVersion0 : Int :=
    if step.n8n_node_type = "n8n-nodes-base.itemLists" then 3 else step.n8n_type_version
  match step.agent with
  | some agent =>
    if step.type = StepType.agent then
      { id := nodeId, name := step.name, type := "n8n-nodes-base.httpRequest",
        typeVersion := 4, position := (step.position.x, step.position.y),
        parameters := buildAgentParameters step agent }
    else
      { id := nodeId, name := step.name, type := step.n8n_node_type,
        typeVersion := typeVersion0, position := (step.position.x, step.position.y),
        parameters := baseParams }
  | none =>
    if step.n8n_node_type = "n8n-nodes-base.httpRequest" ∧ !optFalsy step.tool_id then
      { id := nodeId, name := step.name, type := "n8n-nodes-base.httpRequest",
        typeVersion := 4, position := (step.position.x, step.position.y),
        parameters := buildRegistryParameters step }
    else
      { id := nodeId, name := step.name, type := step.n8n_node_type,
        typeVersion := typeVersion0, position := (step.position.x, step.position.y),
        parameters := baseParams }

/-- The raw model-provider endpoints recognized by
`_convert_direct_ai_calls`. -/
def aiApiPatterns : List String :=
  ["api.openai.com", "api.anthropic.com", "openai.azure.com",
   "generativelanguage.googleapis.com"]

/-- The converted agent-runner body of `_convert_direct_ai_calls` (the
modelled `body` is never a dict, so no system prompt is extracted and the
context is empty). -/
def convertedAiBody (agentName : String) : String :=
  "=\x7b\x7b JSON.stringify(\x7b\n  " ++
  "\"agent_name\": \"" ++ agentName ++ "\"" ++
  ",\n  \"input\": $json" ++
  ",\n  \"context\": \x7b\x7d" ++
  ",\n  \"tools_allowed\": []" ++ "\n\x7d) \x7d\x7d"

/-- Replace every space with an underscore (python `.replace(" ", "_")`). -/
def spacesToUnderscores (s : String) : String :=
  String.mk (s.data.map (fun c => if c = ' ' then '_' else c))

/-- `_convert_direct_ai_calls`: force any HTTP node calling a raw model
provider into the generic agent-runner form. -/
def convertDirectAiCalls (node : N8NNode) : N8NNode :=
  if node.type = "n8n-nodes-base.httpRequest" then
    let url := (node.parameters.url).getD ""
    if aiApiPatterns.any (fun pat => strContains url pat) then
      let agentName := toLowerStr (spacesToUnderscores node.name)
      { node with parameters :=
          { url := some (agentRunnerUrl ++ "/api/agent/run"),
            body := some (convertedAiBody agentName) } }
    else node
  else node

/-- The per-URL agent classification of `_route_api_through_perseus`. -/
def perseusAgentName (url : String) : Option String :=
  if strContains url "api.apollo.io" then
    if strContains url "/people/search" || strContains url "/mixed_people" then
      some "apollo_search_people"
    else if strContains url "/people/match" || strContains url "/people/enrich" then
      some "apollo_enrich_person"
    else if strContains url "/organizations/enrich" then
      some "apollo_enrich_company"
    else none
  else if strContains url "api.phantombuster.com" then
    if strContains url "/launch" then some "phantombuster_launch"
    else if strContains url "/fetch-output" then some "phantombuster_fetch_output"
    else none
  else if strContains url "api.perplexity.ai" then some "perplexity_search"
  else none

/-- The Perseus proxy body of `_route_api_through_perseus`. -/
def perseusBody (agentName nodeId : String) : String :=
  "=\x7b\x7b JSON.stringify(\x7b\n  " ++
  "\"agent_name\": \"" ++ agentName ++ "\"" ++
  ",\n  \"input\": $json" ++
  ",\n  \"n8n_workflow_id\": $workflow.id" ++
  ",\n  " ++ "\"node_id\": \"" ++ nodeId ++ "\"" ++ "\n\x7d) \x7d\x7d"

/-- `_route_api_through_perseus`: route recognized external API calls
through the agent runner. -/
def routeApiThroughPerseus (node : N8NNode) : N8NNode :=
  if node.type = "n8n-nodes-base.httpRequest" then
    let url := (node.parameters.url).getD ""
    match perseusAgentName url with
    | some agentName =>
      { node with parameters :=
          { url := some (agentRunnerUrl ++ "/api/agent/run"),
            body := some (perseusBody agentName node.id) } }
    | none => node
  else node

/-- `WorkflowIR.get_step_by_id`. -/
def getStepById (ir : WorkflowIR) (sid : String) : Option StepSpec :=
  if ir.trigger.id = sid then some ir.trigger
  else ir.steps.find? (fun s => s.id = sid)

/-- First-occurrence-ordered key list (the key order of a python dict
filled by iteration). -/
def dedupFirst (l : List String) : List String :=
  l.foldl (fun acc x => if acc.contains x then acc else acc ++ [x]) []

/-- Python dict assignment `d[k] = v`: overwrite in place or append. -/
def pyDictSet {α : Type} (d : List (String × α)) (k : String) (v : α) :
    List (String × α) :=
  if d.any (fun kv => kv.1 = k) then
    d.map (fun kv => if kv.1 = k then (k, v) else kv)
  else d ++ [(k, v)]

/-- Append `v` to the bucket of `k` (`outputs_by_index` accumulation). -/
def bucketAppend (d : List (Int × List ConnTarget)) (k : Int) (v : ConnTarget) :
    List (Int × List ConnTarget) :=
  if d.any (fun kv => kv.1 = k) then
    d.map (fun kv => if kv.1 = k then (kv.1, kv.2 ++ [v]) else kv)
  else d ++ [(k, [v])]

/-- `int(edge.source_output.replace("output", ""))` with the `ValueError`
fallback to 0. -/
def parseOutputIdx (s : String) : Int :=
  match (s.replace "output" "").toInt? with
  | some n => n
  | none => 0

/-- `_get_branch_output_index`: position of the first branch condition
whose `output`, `name` or `value` equals the edge condition, else 0. -/
def getBranchOutputIndex (step : StepSpec) (c : String) : Int :=
  match (step.branch_conditions.enum.find? (fun p =>
      p.2.output = some c || p.2.name = some c || p.2.value = some c)) with
  | some p => Int.ofNat p.1
  | none => 0

/-- The output index of one edge in `_compile_connections`: a truthy
condition on a branch source maps through the branch conditions; otherwise
a non-`"main"` output name is parsed positionally. -/
def edgeOutputIndex (sourceStep : StepSpec) (e : EdgeSpec) : Int :=
  let condTruthy : Bool := match e.condition with
    | some c => decide (c ≠ "")
    | none => false
  if condTruthy then
    if sourceStep.type = StepType.branch then
      getBranchOutputIndex sourceStep ((e.condition).getD "")
    else 0
  else if e.source_output ≠ "main" then parseOutputIdx e.source_output
  else 0

/-- The dense `main` output array for one source: buckets from index 0 to
the maximum observed index, empty where no edge lands
(`range(max_output + 1)` padding). -/
def mainOutputs (outputsByIndex : List (Int × List ConnTarget)) :
    List (List ConnTarget) :=
  let maxOutput : Int :=
    match outputsByIndex.map (fun kv => kv.1) with
    | [] => 0
    | k :: ks => ks.foldl max k
  (List.range (maxOutput + 1).toNat).map
    (fun i => ((outputsByIndex.find? (fun kv => kv.1 = Int.ofNat i)).map
      (fun kv => kv.2)).getD [])

/-- `_compile_connections`: group edges by source id (insertion order),
resolve source and target steps (silently skipping unresolvable ids),
assign each edge an output index and emit the padded per-source `main`
array keyed by the source step name. -/
def compileConnections (ir : WorkflowIR) : List (String × List (List ConnTarget)) :=
  (dedupFirst (ir.edges.map (fun e => e.source_id))).foldl
    (fun conns sid =>
      match getStepById ir sid with
      | none => conns
      | some sourceStep =>
        let group := ir.edges.filter (fun e => e.source_id = sid)
        let pairs := group.filterMap (fun e =>
          (getStepById ir e.target_id).map (fun t =>
            (edgeOutputIndex sourceStep e,
             ({ node := t.name, type := e.target_input, index := 0 } : ConnTarget))))
        let outputsByIndex := pairs.foldl (fun ob p => bucketAppend ob p.1 p.2) []
        pyDictSet conns sourceStep.name (mainOutputs outputsByIndex))
    []

/-- `N8NCompiler.compile` with the default
`route_apis_through_perseus=True`: compile the trigger and every step,
apply the direct-AI safety net and the Perseus routing pass to each node,
and compile the connections. -/
def compileIR (rtool : ToolResolver) (ir : WorkflowIR) : CompiledWorkflow :=
  let nodes0 := ((ir.trigger :: ir.steps).enum).map
    (fun p => compileStep rtool ("node-" ++ toString p.1) p.2)
  let nodes1 := nodes0.map convertDirectAiCalls
  let nodes := nodes1.map routeApiThroughPerseus
  { name := ir.name, nodes := nodes, connections := compileConnections ir }

/-- `validate_compiled`: the checks expressible over the structured
document (a node's `id`, `name`, `type` and `position` keys are always
emitted by `compile` and are present by construction here): a non-empty
node array, no duplicate node names, and no dangling connection source or
target. -/
def validateCompiled (compiled : CompiledWorkflow) : List String :=
  let emptyErrs := if compiled.nodes.isEmpty then ["Workflow has no nodes"] else []
  let nodePass := compiled.nodes.foldl
    (fun (p : List String × List String) node =>
      if p.2.contains node.name then
        (p.1 ++ ["Duplicate node name: " ++ node.name], p.2)
      else (p.1, p.2 ++ [node.name]))
    ([], [])
  let nodeNames := nodePass.2
  let connErrs := compiled.connections.foldl
    (fun acc c =>
      let srcErr := if nodeNames.contains c.1 then []
        else ["Connection source not found: " ++ c.1]
      let tgtErrs := (c.2.flatten).filterMap (fun conn =>
        if nodeNames.contains conn.node then none
        else some ("Connection target not found: " ++ conn.node))
      acc ++ srcErr ++ tgtErrs)
    []
  emptyErrs ++ nodePass.1 ++ connErrs

/-! ## Substring lemmas and claim C6 -/

/-- A list is a `isPrefixOf`-prefix of itself followed by anything. -/
lemma isPrefixOf_self_append (t l : List Char) : t.isPrefixOf (t ++ l) = true := by
  induction t with
  | nil => simp [List.isPrefixOf]
  | cons a as ih => simp [List.isPrefixOf, ih]

/-- Extending the hay on the right preserves `isPrefixOf`. -/
lemma isPrefixOf_append_of (t m b : List Char) (h : t.isPrefixOf m = true) :
    t.isPrefixOf (m ++ b) = true := by
  induction t generalizing m with
  | nil => simp [List.isPrefixOf]
  | cons a as ih =>
    cases m with
    | nil => cases h
    | cons x xs =>
      simp only [List.isPrefixOf, Bool.and_eq_true] at h
      simp only [List.cons_append, List.isPrefixOf, Bool.and_eq_true]
      exact ⟨h.1, ih xs h.2⟩

/-- The needle occurs in `t ++ l` when it is `t` itself. -/
lemma charsContain_self_append (t l : List Char) : charsContain t (t ++ l) = true := by
  cases t with
  | nil => cases l <;> simp [charsContain, List.isPrefixOf]
  | cons a as =>
    simp only [List.cons_append, charsContain, Bool.or_eq_true]
    exact Or.inl (by simpa [List.isPrefixOf] using isPrefixOf_self_append as (l))

/-- Prepending to the hay preserves containment. -/
lemma charsContain_append_left (a needle b : List Char)
    (h : charsContain needle b = true) : charsContain needle (a ++ b) = true := by
  induction a with
  | nil => exact h
  | cons c cs ih =>
    simp only [List.cons_append, charsContain, Bool.or_eq_true]
    exact Or.inr ih

/-- Appending to the hay preserves containment. -/
lemma charsContain_append_right (needle a b : List Char)
    (h : charsContain needle a = true) : charsContain needle (a ++ b) = true := by
  induction a with
  | nil =>
    have : needle = [] := by
      cases needle with
      | nil => rfl
      | cons x xs => cases h
    subst this
    cases b <;> simp [charsContain, List.isPrefixOf]
  | cons c cs ih =>
    simp only [charsContain, Bool.or_eq_true] at h
    simp only [List.cons_append, charsContain, Bool.or_eq_true]
    rcases h with h | h
    · exact Or.inl (isPrefixOf_append_of _ _ _ h)
    · exact Or.inr (ih h)

/-- String-level: the needle occurs in any `hay ++ extra` where it occurs
in `hay`. -/
lemma strContains_append_right (hay extra t : String)
    (h : strContains hay t = true) : strContains (hay ++ extra) t = true :=
  charsContain_append_right t.data hay.data extra.data h

/-- String-level: the needle occurs in any `pre ++ hay` where it occurs in
`hay`. -/
lemma strContains_append_left (pre hay t : String)
    (h : strContains hay t = true) : strContains (pre ++ hay) t = true :=
  charsContain_append_left pre.data t.data hay.data h

/-- Every string occurs in itself. -/
lemma strContains_self (t : String) : strContains t t = true := by
  have := charsContain_self_append t.data []
  rwa [List.append_nil] at this

/-- `applyToolResolution` only touches the tool metadata fields. -/
lemma applyToolResolution_fields (rtool : ToolResolver) (s : StepSpec) :
    (applyToolResolution rtool s).agent = s.agent ∧
    (applyToolResolution rtool s).type = s.type ∧
    (applyToolResolution rtool s).id = s.id ∧
    (applyToolResolution rtool s).name = s.name ∧
    (applyToolResolution rtool s).n8n_node_type = s.n8n_node_type ∧
    (applyToolResolution rtool s).position = s.position := by
  unfold applyToolResolution
  repeat' split
  all_goals simp [apply_ite]

/-- C6 (amended). Compiling a step of type `agent` whose `AgentSpec` has
name `"apollo_search"` produces a single HTTP-call node
(`n8n-nodes-base.httpRequest`) whose body string contains the token
`"agent_name": "apollo_search"` (with the space after the colon that the
JSON template emits) and contains `"node_id": "<step id>"` with the step's
own id. -/
theorem C6_agent_lowering (rtool : ToolResolver) (nodeId : String)
    (step : StepSpec) (agent : AgentSpec)
    (hstep : step.agent = some agent) (hty : step.type = StepType.agent)
    (hname : agent.name = "apollo_search") :
    (routeApiThroughPerseus (convertDirectAiCalls (compileStep rtool nodeId step))).type =
      "n8n-nodes-base.httpRequest" ∧
    ∃ b, (routeApiThroughPerseus (convertDirectAiCalls
        (compileStep rtool nodeId step))).parameters.body = some b ∧
      strContains b "\"agent_name\": \"apollo_search\"" = true ∧
      strContains b ("\"node_id\": \"" ++ step.id ++ "\"") = true := by
  obtain ⟨hA, hT, hI, _, _, _⟩ := applyToolResolution_fields rtool step
  have hA' : (applyToolResolution rtool step).agent = some agent := by rw [hA]; exact hstep
  have hT' : (applyToolResolution rtool step).type = StepType.agent := by rw [hT]; exact hty
  have hstepeq : compileStep rtool nodeId step =
      { id := nodeId, name := (applyToolResolution rtool step).name,
        type := "n8n-nodes-base.httpRequest", typeVersion := 4,
        position := ((applyToolResolution rtool step).position.x,
                     (applyToolResolution rtool step).position.y),
        parameters := buildAgentParameters (applyToolResolution rtool step) agent } := by
    simp only [compileStep, hA', hT', if_pos]
  have hurl : aiApiPatterns.any
      (fun pat => strContains (agentRunnerUrl ++ "/api/agent/run") pat) = false := by decide
  have hconv : convertDirectAiCalls (compileStep rtool nodeId step) =
      compileStep rtool nodeId step := by
    rw [hstepeq]
    simp [convertDirectAiCalls, buildAgentParameters, hurl]
  have hper : perseusAgentName (agentRunnerUrl ++ "/api/agent/run") = none := by decide
  have hroute : routeApiThroughPerseus (compileStep rtool nodeId step) =
      compileStep rtool nodeId step := by
    rw [hstepeq]
    simp [routeApiThroughPerseus, buildAgentParameters, hper]
  rw [hconv, hroute, hstepeq]
  refine ⟨rfl, buildAgentBody (applyToolResolution rtool step) agent, rfl, ?_, ?_⟩
  · rw [show ("\"agent_name\": \"apollo_search\"" : String) =
        "\"agent_name\": \"" ++ agent.name ++ "\"" by rw [hname]; decide]
    rw [buildAgentBody]
    apply strContains_append_right
    apply strContains_append_right
    apply strContains_append_right
    apply strContains_append_left
    exact strContains_self _
  · rw [show ("\"node_id\": \"" ++ step.id ++ "\"" : String) =
        "\"node_id\": \"" ++ (applyToolResolution rtool step).id ++ "\"" by rw [hI]]
    rw [buildAgentBody]
    apply strContains_append_right
    apply strContains_append_left
    exact strContains_self _

/-- Witness for C6: a concrete `apollo_search` agent step. -/
theorem C6_agent_lowering_witness :
    (routeApiThroughPerseus (convertDirectAiCalls (compileStep (fun _ _ => none) "node-1"
      { id := "step1", name := "Search Apollo for Prospects", type := StepType.agent,
        agent := some { name := "apollo_search", role := "Search for prospects" },
        n8n_node_type := "@n8n/n8n-nodes-langchain.agent" }))).type =
      "n8n-nodes-base.httpRequest" ∧
    ∃ b, (routeApiThroughPerseus (convertDirectAiCalls (compileStep (fun _ _ => none) "node-1"
      { id := "step1", name := "Search Apollo for Prospects", type := StepType.agent,
        agent := some { name := "apollo_search", role := "Search for prospects" },
        n8n_node_type := "@n8n/n8n-nodes-langchain.agent" }))).parameters.body = some b ∧
      strContains b "\"agent_name\": \"apollo_search\"" = true ∧
      strContains b ("\"node_id\": \"" ++ "step1" ++ "\"") = true := by
  exact C6_agent_lowering (fun _ _ => none) "node-1"
    { id := "step1", name := "Search Apollo for Prospects", type := StepType.agent,
      agent := some { name := "apollo_search", role := "Search for prospects" },
      n8n_node_type := "@n8n/n8n-nodes-langchain.agent" }
    { name := "apollo_search", role := "Search for prospects" } rfl rfl rfl

set_option maxRecDepth 8000 in
/-- Counterexample for C6 as stated: the compiled body does not contain
the claimed literal token `"agent_name":"apollo_search"`, because the
template writes a space after the colon. -/
theorem C6_counterexample :
    strContains
      ((routeApiThroughPerseus (convertDirectAiCalls (compileStep (fun _ _ => none) "node-1"
        { id := "step1", name := "Search Apollo for Prospects", type := StepType.agent,
          agent := some { name := "apollo_search", role := "Search for prospects" },
          n8n_node_type := "@n8n/n8n-nodes-langchain.agent" }))).parameters.body.getD "")
      "\"agent_name\":\"apollo_search\"" = false ∧
    strContains
      ((routeApiThroughPerseus (convertDirectAiCalls (compileStep (fun _ _ => none) "node-1"
        { id := "step1", name := "Search Apollo for Prospects", type := StepType.agent,
          agent := some { name := "apollo_search", role := "Search for prospects" },
          n8n_node_type := "@n8n/n8n-nodes-langchain.agent" }))).parameters.body.getD "")
      "\"agent_name\": \"apollo_search\"" = true := by
  constructor <;> decide

/-! ## Claim C3: compile/validate round trip -/

/-- `_compile_step` emits the step's own name. -/
lemma compileStep_name (rtool : ToolResolver) (nid : String) (s : StepSpec) :
    (compileStep rtool nid s).name = s.name := by
  have h := (applyToolResolution_fields rtool s).2.2.2.1
  rcases hA : (applyToolResolution rtool s).agent with _ | a <;>
    simp only [compileStep, hA] <;> split <;> simp [h]

/-- The direct-AI safety net never renames a node. -/
lemma convertDirectAiCalls_name (n : N8NNode) :
    (convertDirectAiCalls n).name = n.name := by
  by_cases h1 : n.type = "n8n-nodes-base.httpRequest"
  · by_cases h2 : (aiApiPatterns.any fun pat =>
        strContains (n.parameters.url.getD "") pat) = true <;>
      simp [convertDirectAiCalls, h1, h2]
  · simp [convertDirectAiCalls, h1]

/-- The Perseus routing pass never renames a node. -/
lemma routeApiThroughPerseus_name (n : N8NNode) :
    (routeApiThroughPerseus n).name = n.name := by
  by_cases h1 : n.type = "n8n-nodes-base.httpRequest"
  · cases h2 : perseusAgentName (n.parameters.url.getD "") <;>
      simp [routeApiThroughPerseus, h1, h2]
  · simp [routeApiThroughPerseus, h1]

/-- The compiled node names are the trigger name followed by the step
names, in order. -/
lemma compileIR_names (rtool : ToolResolver) (ir : WorkflowIR) :
    (compileIR rtool ir).nodes.map (fun n => n.name) =
      ir.trigger.name :: ir.steps.map (fun s => s.name) := by
  simp only [compileIR, List.map_map]
  have hcong : ((ir.trigger :: ir.steps).enum).map
      ((fun n => n.name) ∘ routeApiThroughPerseus ∘ convertDirectAiCalls ∘
        (fun p : Nat × StepSpec => compileStep rtool ("node-" ++ toString p.1) p.2)) =
      ((ir.trigger :: ir.steps).enum).map (fun p => p.2.name) := by
    apply List.map_eq_map_iff.mpr
    intro p _
    simp only [Function.comp]
    rw [routeApiThroughPerseus_name, convertDirectAiCalls_name, compileStep_name]
  rw [hcong]
  have : ((ir.trigger :: ir.steps).enum).map (fun p : Nat × StepSpec => p.2.name) =
      (((ir.trigger :: ir.steps).enum).map Prod.snd).map (fun s => s.name) := by
    rw [List.map_map]
    rfl
  rw [this, List.enum_map_snd]
  rfl

/-- The duplicate-name fold of `validate_compiled` reports nothing and
collects the names in order when the seen and incoming names are jointly
duplicate-free. -/
lemma validate_nodePass (nodes : List N8NNode) :
    ∀ (seen errs : List String),
      (seen ++ nodes.map (fun n => n.name)).Nodup →
      nodes.foldl (fun (p : List String × List String) node =>
          if p.2.contains node.name then
            (p.1 ++ ["Duplicate node name: " ++ node.name], p.2)
          else (p.1, p.2 ++ [node.name]))
        (errs, seen) = (errs, seen ++ nodes.map (fun n => n.name)) := by
  induction nodes with
  | nil => intro seen errs _; simp
  | cons n rest ih =>
    intro seen errs hnd
    have hnotin : n.name ∉ seen := by
      rw [List.nodup_append] at hnd
      intro hc
      exact hnd.2.2 hc (List.mem_cons_self _ _)
    simp only [List.foldl_cons]
    rw [if_neg (fun hc => hnotin (List.elem_iff.mp hc))]
    have hres := ih (seen ++ [n.name]) errs
      (by rw [List.append_assoc]; simpa using hnd)
    rw [hres]
    simp

/-- Any step found by `get_step_by_id` is the trigger or a listed step. -/
lemma getStepById_mem (ir : WorkflowIR) (sid : String) (t : StepSpec)
    (h : getStepById ir sid = some t) : t = ir.trigger ∨ t ∈ ir.steps := by
  unfold getStepById at h
  by_cases h1 : ir.trigger.id = sid
  · rw [if_pos h1] at h
    cases h
    exact Or.inl rfl
  · rw [if_neg h1] at h
    exact Or.inr (List.mem_of_find?_eq_some h)

/-- Entries after a python dict assignment are old entries or the assigned
pair. -/
lemma mem_pyDictSet {α : Type} (d : List (String × α)) (k : String) (v : α)
    (x : String × α) (hx : x ∈ pyDictSet d k v) : x ∈ d ∨ x = (k, v) := by
  unfold pyDictSet at hx
  by_cases h : d.any (fun kv => kv.1 = k) = true
  · rw [if_pos h] at hx
    obtain ⟨kv, hkv, hmap⟩ := List.mem_map.mp hx
    by_cases h2 : kv.1 = k
    · rw [if_pos h2] at hmap
      exact Or.inr hmap.symm
    · rw [if_neg h2] at hmap
      exact Or.inl (hmap ▸ hkv)
  · rw [if_neg h] at hx
    rcases List.mem_append.mp hx with hx | hx
    · exact Or.inl hx
    · exact Or.inr (List.mem_singleton.mp hx)

/-- A generic fold invariant for list accumulators. -/
lemma foldl_inv {β γ : Type} (Q : γ → Prop) (f : List γ → β → List γ)
    (hf : ∀ acc b, (∀ x ∈ acc, Q x) → ∀ x ∈ f acc b, Q x) :
    ∀ (l : List β) (init : List γ), (∀ x ∈ init, Q x) → ∀ x ∈ l.foldl f init, Q x := by
  intro l
  induction l with
  | nil => intro init h x hx; exact h x hx
  | cons b bs ih =>
    intro init h x hx
    exact ih (f init b) (hf init b h) x hx

/-- Bucket members accumulated by `bucketAppend` come from the inserted
targets. -/
lemma bucketAppend_fold_mem (P : ConnTarget → Prop) :
    ∀ (ps : List (Int × ConnTarget)) (init : List (Int × List ConnTarget)),
      (∀ kv ∈ init, ∀ c ∈ kv.2, P c) → (∀ p ∈ ps, P p.2) →
      ∀ kv ∈ ps.foldl (fun ob p => bucketAppend ob p.1 p.2) init, ∀ c ∈ kv.2, P c := by
  intro ps
  induction ps with
  | nil => intro init hinit _ kv hkv c hc; exact hinit kv hkv c hc
  | cons p ps ih =>
    intro init hinit hps kv hkv c hc
    have hstep : ∀ kv2 ∈ bucketAppend init p.1 p.2, ∀ c2 ∈ kv2.2, P c2 := by
      intro kv2 hkv2 c2 hc2
      unfold bucketAppend at hkv2
      by_cases h : init.any (fun kv3 => kv3.1 = p.1) = true
      · rw [if_pos h] at hkv2
        obtain ⟨kv3, hkv3, hmap⟩ := List.mem_map.mp hkv2
        by_cases h2 : kv3.1 = p.1
        · rw [if_pos h2] at hmap
          rw [← hmap] at hc2
          rcases List.mem_append.mp hc2 with hc2 | hc2
          · exact hinit kv3 hkv3 c2 hc2
          · rcases List.mem_singleton.mp hc2 with rfl
            exact hps p (List.mem_cons_self _ _)
        · rw [if_neg h2] at hmap
          exact hinit kv3 hkv3 c2 (hmap ▸ hc2)
      · rw [if_neg h] at hkv2
        rcases List.mem_append.mp hkv2 with hkv2 | hkv2
        · exact hinit kv2 hkv2 c2 hc2
        · rcases List.mem_singleton.mp hkv2 with rfl
          rcases List.mem_singleton.mp hc2 with rfl
          exact hps p (List.mem_cons_self _ _)
    exact ih (bucketAppend init p.1 p.2) hstep
      (fun q hq => hps q (List.mem_cons_of_mem _ hq)) kv hkv c hc

/-- Targets listed in the padded `main` arrays come from the buckets. -/
lemma mainOutputs_mem (P : ConnTarget → Prop) (ob : List (Int × List ConnTarget))
    (hob : ∀ kv ∈ ob, ∀ c ∈ kv.2, P c) :
    ∀ bucket ∈ mainOutputs ob, ∀ c ∈ bucket, P c := by
  intro bucket hb c hc
  unfold mainOutputs at hb
  obtain ⟨i, _, hbi⟩ := List.mem_map.mp hb
  cases hfind : ob.find? (fun kv => kv.1 = Int.ofNat i) with
  | none =>
    rw [hfind] at hbi
    rw [← hbi] at hc
    cases hc
  | some kv =>
    rw [hfind] at hbi
    have hkv := List.mem_of_find?_eq_some hfind
    rw [← hbi] at hc
    exact hob kv hkv c hc

/-- Every connection entry of the compiled document keys an existing
step's name and only targets existing steps' names. -/
lemma compileConnections_inv (ir : WorkflowIR) :
    ∀ entry ∈ compileConnections ir,
      (∃ s, (s = ir.trigger ∨ s ∈ ir.steps) ∧ entry.1 = s.name) ∧
      (∀ bucket ∈ entry.2, ∀ c ∈ bucket,
        ∃ s, (s = ir.trigger ∨ s ∈ ir.steps) ∧ c.node = s.name) := by
  unfold compileConnections
  apply foldl_inv
  · intro acc sid hacc x hx
    cases hfind : getStepById ir sid with
    | none =>
      rw [hfind] at hx
      exact hacc x hx
    | some sourceStep =>
      rw [hfind] at hx
      rcases mem_pyDictSet _ _ _ _ hx with hx | hx
      · exact hacc x hx
      · subst hx
        refine ⟨⟨sourceStep, getStepById_mem ir sid sourceStep hfind, rfl⟩, ?_⟩
        apply mainOutputs_mem
        apply bucketAppend_fold_mem
        · intro kv hkv; cases hkv
        · intro p hp
          obtain ⟨e, _, hsome⟩ := List.mem_filterMap.mp hp
          obtain ⟨t, ht, hpt⟩ := Option.map_eq_some'.mp hsome
          refine ⟨t, getStepById_mem ir e.target_id t ht, ?_⟩
          rw [← hpt]
  · intro x hx
    cases hx

/-- With duplicate-free step names, the compiled document validates with
no errors (regardless of graph validity: unresolvable connection endpoints
are silently skipped by `_compile_connections`). -/
lemma validateCompiled_compileIR (rtool : ToolResolver) (ir : WorkflowIR)
    (hnames : (ir.trigger.name :: ir.steps.map (fun s => s.name)).Nodup) :
    validateCompiled (compileIR rtool ir) = [] := by
  have hnamesEq := compileIR_names rtool ir
  have hne : (compileIR rtool ir).nodes.isEmpty = false := by
    cases hcase : (compileIR rtool ir).nodes with
    | nil => rw [hcase] at hnamesEq; cases hnamesEq
    | cons _ _ => rfl
  have hpass := validate_nodePass (compileIR rtool ir).nodes [] []
    (by rw [List.nil_append, hnamesEq]; exact hnames)
  have hmemName : ∀ s : StepSpec, (s = ir.trigger ∨ s ∈ ir.steps) →
      s.name ∈ (compileIR rtool ir).nodes.map (fun n => n.name) := by
    intro s hs
    rw [hnamesEq]
    rcases hs with rfl | hs
    · exact List.mem_cons_self _ _
    · exact List.mem_cons_of_mem _ (List.mem_map.mpr ⟨s, hs, rfl⟩)
  unfold validateCompiled
  rw [hpass, hne]
  simp only [List.nil_append, Bool.false_eq_true, if_false]
  have hconn : (compileIR rtool ir).connections.foldl
      (fun acc c =>
        let srcErr := if ((compileIR rtool ir).nodes.map (fun n => n.name)).contains c.1
          then [] else ["Connection source not found: " ++ c.1]
        let tgtErrs := (c.2.flatten).filterMap (fun conn =>
          if ((compileIR rtool ir).nodes.map (fun n => n.name)).contains conn.node then none
          else some ("Connection target not found: " ++ conn.node))
        acc ++ srcErr ++ tgtErrs) [] = [] := by
    have hinv := compileConnections_inv ir
    have hstep : ∀ c ∈ (compileIR rtool ir).connections,
        (if ((compileIR rtool ir).nodes.map (fun n => n.name)).contains c.1
          then ([] : List String) else ["Connection source not found: " ++ c.1]) = [] ∧
        ((c.2.flatten).filterMap (fun conn =>
          if ((compileIR rtool ir).nodes.map (fun n => n.name)).contains conn.node then none
          else some ("Connection target not found: " ++ conn.node))) = [] := by
      intro c hc
      have hc2 := hinv c hc
      constructor
      · obtain ⟨s, hs, hname⟩ := hc2.1
        rw [if_pos]
        rw [hname]
        exact List.elem_iff.mpr (hmemName s hs)
      · rw [List.filterMap_eq_nil_iff]
        intro conn hconn2
        obtain ⟨bucket, hb, hcb⟩ := List.mem_flatten.mp hconn2
        obtain ⟨s, hs, hname⟩ := hc2.2 bucket hb conn hcb
        rw [if_pos]
        rw [hname]
        exact List.elem_iff.mpr (hmemName s hs)
    generalize hl : (compileIR rtool ir).connections = l at hstep
    clear hl hinv
    induction l with
    | nil => rfl
    | cons c cs ih =>
      have h1 := hstep c (List.mem_cons_self _ _)
      simp only [List.foldl_cons, h1.1, h1.2, List.append_nil, List.nil_append]
      exact ih (fun x hx => hstep x (List.mem_cons_of_mem _ hx))
  rw [hconn]

/-- A successful checked construction returns exactly the given record. -/
lemma make_ok_eq (name : String) (trigger : StepSpec) (steps : List StepSpec)
    (edges : List EdgeSpec) (ir : WorkflowIR)
    (h : WorkflowIR.make name trigger steps edges = Except.ok ir) :
    ir = { name := name, trigger := trigger, steps := steps, edges := edges } := by
  simp only [WorkflowIR.make] at h
  cases hf1 : edges.find? (fun e =>
      !((trigger.id :: steps.map fun s => s.id).contains e.source_id) ||
      !((trigger.id :: steps.map fun s => s.id).contains e.target_id)) with
  | some e => rw [hf1] at h; cases h
  | none =>
    rw [hf1] at h
    cases hf2 : steps.find? (fun s => !((edges.map fun e => e.target_id).contains s.id)) with
    | some s => rw [hf2] at h; cases h
    | none =>
      rw [hf2] at h
      injection h with h
      exact h.symm

/-- C3 (amended). For every valid `WorkflowIR` whose trigger and step
names are pairwise distinct, `validate_compiled(compile(ir))` returns an
empty error list: the compiled document has a name, a non-empty nodes
array each carrying id, name, type and position, no duplicate node names,
and every connection source and target names an existing node. (Without
distinct names the round trip fails, see the counterexample: IR validity
does not constrain step names.) -/
theorem C3_compile_validate (rtool : ToolResolver) (name : String)
    (trigger : StepSpec) (steps : List StepSpec) (edges : List EdgeSpec)
    (ir : WorkflowIR)
    (hmk : WorkflowIR.make name trigger steps edges = Except.ok ir)
    (hnames : (trigger.name :: steps.map (fun s => s.name)).Nodup) :
    validateCompiled (compileIR rtool ir) = [] := by
  have heq := make_ok_eq name trigger steps edges ir hmk
  subst heq
  exact validateCompiled_compileIR rtool _ hnames

/-- Witness for C3: a concrete valid workflow with distinct names
compiles to a document that validates cleanly. -/
theorem C3_compile_validate_witness :
    validateCompiled (compileIR (fun _ _ => none)
      { name := "w",
        trigger := { id := "t", name := "Trig", type := StepType.trigger,
                     n8n_node_type := "n8n-nodes-base.webhook" },
        steps := [{ id := "s1", name := "Act", type := StepType.action,
                    n8n_node_type := "n8n-nodes-base.set" }],
        edges := [{ id := "e1", source_id := "t", target_id := "s1" }] }) = [] := by
  exact C3_compile_validate (fun _ _ => none) "w"
    { id := "t", name := "Trig", type := StepType.trigger,
      n8n_node_type := "n8n-nodes-base.webhook" }
    [{ id := "s1", name := "Act", type := StepType.action,
       n8n_node_type := "n8n-nodes-base.set" }]
    [{ id := "e1", source_id := "t", target_id := "s1" }]
    _ rfl (by decide)

/-- Counterexample for C3 as stated: a valid `WorkflowIR` (it passes
`validate_graph_integrity`) whose trigger and step share the name `"A"`
compiles to a document that `validate_compiled` rejects with a duplicate
node name error. -/
theorem C3_counterexample :
    WorkflowIR.make "w"
      { id := "t", name := "A", type := StepType.trigger,
        n8n_node_type := "n8n-nodes-base.webhook" }
      [{ id := "s1", name := "A", type := StepType.action,
         n8n_node_type := "n8n-nodes-base.set" }]
      [{ id := "e1", source_id := "t", target_id := "s1" }] =
      Except.ok
        { name := "w",
          trigger := { id := "t", name := "A", type := StepType.trigger,
                       n8n_node_type := "n8n-nodes-base.webhook" },
          steps := [{ id := "s1", name := "A", type := StepType.action,
                      n8n_node_type := "n8n-nodes-base.set" }],
          edges := [{ id := "e1", source_id := "t", target_id := "s1" }] } ∧
    validateCompiled (compileIR (fun _ _ => none)
      { name := "w",
        trigger := { id := "t", name := "A", type := StepType.trigger,
                     n8n_node_type := "n8n-nodes-base.webhook" },
        steps := [{ id := "s1", name := "A", type := StepType.action,
                    n8n_node_type := "n8n-nodes-base.set" }],
        edges := [{ id := "e1", source_id := "t", target_id := "s1" }] }) =
      ["Duplicate node name: A"] := by
  exact ⟨rfl, by decide⟩

/-! ## Claim C7: capability resolver
(`app/n8n/capability_resolver.py`)

The `ResolvedCapability` record is modelled by the routing fields the
claims inspect (`use_native_node`, node/resource/operation, API name and
endpoint, `requires_agent`); the confidence scalar, warnings, limitations,
alternatives, credential metadata and prebuilt HTTP configuration are not
read by any verified property and are elided. An ordered regex of the
`INTENT_PATTERNS` table is embedded as a sequence of alternative-literal
groups separated by `.*` (the only regex shape the table uses), matched
with `re.search` semantics: the groups match in order at nondecreasing
positions. -/

/-- The routing fields of `ResolvedCapability`. -/
structure ResolvedCapability where
  intent : String
  use_native_node : Bool
  node_type : Option String := none
  node_key : Option String := none
  resource : Option String := none
  operation : Option String := none
  api_name : Option String := none
  api_endpoint : Option String := none
  requires_agent : Bool := false
deriving DecidableEq, Repr

/-- All suffixes of a character list, longest first. -/
def suffixesOf : List Char → List (List Char)
  | [] => [[]]
  | c :: cs => (c :: cs) :: suffixesOf cs

/-- Match a sequence of alternative groups separated by `.*` against a
character list (`re.search` semantics): each group matches one of its
literal alternatives, groups in order, each starting at or after the end
of the previous match. -/
def seqMatch : List (List String) → List Char → Bool
  | [], _ => true
  | g :: rest, s =>
    (suffixesOf s).any (fun suf =>
      g.any (fun alt => alt.data.isPrefixOf suf && seqMatch rest (suf.drop alt.data.length)))

/-- One `INTENT_PATTERNS` entry: a top-level disjunction of group
sequences. -/
def patternMatches (disjuncts : List (List (List String))) (s : List Char) : Bool :=
  disjuncts.any (fun seq => seqMatch seq s)

/-- The ordered `INTENT_PATTERNS` table; first match wins. Each python
regex is transcribed as its disjuncts of `.*`-separated alternative
groups, in declaration order. -/
def intentPatternTable : List (List (List (List String)) × String × String) :=
  [ ([[["company page", "company post"], ["linkedin"]],
      [["linkedin"], ["company page", "company post"]]], "linkedin", "company_post"),
    ([[["post", "share"], ["company", "page"], ["linkedin"]],
      [["linkedin"], ["post", "share"], ["company", "page"]]], "linkedin", "company_post"),
    ([[["message", "dm", "inmail"], ["linkedin"]],
      [["linkedin"], ["message", "dm", "inmail"]]], "linkedin", "send_message"),
    ([[["connect", "connection"], ["linkedin"]],
      [["linkedin"], ["connect", "connection"]]], "linkedin", "send_connection"),
    ([[["search", "find"], ["linkedin"]],
      [["search", "find"], ["people"], ["linkedin"]],
      [["search", "find"], ["linkedin"], ["people"]]], "linkedin", "search_people"),
    ([[["scrape", "extract"], ["linkedin"]],
      [["linkedin"], ["scrape", "extract"]]], "linkedin", "scrape_profile"),
    ([[["view", "visit"], ["profile"], ["linkedin"]],
      [["linkedin"], ["view", "visit"], ["profile"]]], "linkedin", "view_profile"),
    ([[["hubspot", "salesforce", "pipedrive"], ["contact", "lead", "deal"]]], "crm", "manage_record"),
    ([[["create", "add", "update", "get"], ["contact", "lead", "deal"]]], "crm", "manage_record"),
    ([[["crm"], ["sync", "update", "create"]]], "crm", "manage_record"),
    ([[["sms", "text message", "twilio"]]], "communication", "send_sms"),
    ([[["slack", "teams", "discord"], ["message", "notify", "send"]]], "communication", "send_notification"),
    ([[["telegram", "bot"], ["message", "send"]]], "communication", "send_telegram"),
    ([[["cold", "outreach", "sequence"], ["email"]]], "email", "cold_email"),
    ([[["send", "compose", "write"], ["email"]]], "email", "send_email"),
    ([[["gmail", "outlook"], ["send", "read", "email"]]], "email", "email_operation"),
    ([[["apollo", "clearbit", "clay", "zoominfo"]]], "enrichment", "enrichment_api"),
    ([[["enrich"], ["lead", "person", "company", "contact", "data"]]], "enrichment", "person_enrichment"),
    ([[["lookup", "find"], ["person", "people", "contact"]]], "enrichment", "person_enrichment"),
    ([[["lookup", "find"], ["company", "organization", "domain"]]], "enrichment", "company_enrichment"),
    ([[["find", "get"], ["email", "contact info"]]], "enrichment", "email_finder"),
    ([[["schedule", "calendar", "meeting", "appointment"]]], "scheduling", "manage_calendar"),
    ([[["calendly", "cal.com"]]], "scheduling", "scheduling_tool"),
    ([[["postgres", "mysql", "mongodb", "database"], ["query", "insert", "update"]]], "database", "database_operation"),
    ([[["airtable", "google sheets", "spreadsheet"]]], "database", "spreadsheet_operation"),
    ([[["analyze", "sentiment", "classify", "summarize", "generate", "personalize",
        "tailor", "write", "draft", "create"],
       ["message", "content", "text", "email", "outreach"]]], "ai", "ai_task"),
    ([[["analyze", "sentiment", "classify", "summarize"]]], "ai", "ai_task"),
    ([[["gpt", "claude", "openai", "anthropic", "llm", "ai"]]], "ai", "ai_task"),
    ([[["perplexity"]]], "research", "perplexity_search"),
    ([[["research", "investigate"], ["company", "person", "lead", "prospect", "market"]]], "research", "company_research"),
    ([[["web search", "search the web", "look up", "find information about"]]], "research", "web_search"),
    ([[["current", "latest", "recent"], ["news", "info", "information"]]], "research", "web_search") ]

/-- `_parse_intent`: first matching pattern wins, else
`("general", "unknown")`. -/
def parseIntent (intent : String) : String × String :=
  match intentPatternTable.find? (fun p => patternMatches p.1 intent.data) with
  | some p => p.2
  | none => ("general", "unknown")

/-- The ordered explicit tool keyword table of `_detect_explicit_tool`. -/
def toolKeywords : List (String × String) :=
  [("phantombuster", "phantombuster"), ("apollo", "apollo"), ("clearbit", "clearbit"),
   ("clay", "clay"), ("instantly", "instantly"), ("lemlist", "lemlist"),
   ("hubspot", "hubspot"), ("salesforce", "salesforce"), ("pipedrive", "pipedrive"),
   ("gmail", "gmail"), ("outlook", "outlook"), ("slack", "slack"),
   ("discord", "discord"), ("telegram", "telegram"), ("airtable", "airtable"),
   ("notion", "notion"), ("perplexity", "perplexity")]

/-- `_detect_explicit_tool`. -/
def detectExplicitTool (intent : String) : Option String :=
  (toolKeywords.find? (fun kw => strContains intent kw.1)).map (fun kw => kw.2)

/-- `N8N_NODE_CATALOG`, restricted to the fields the resolver reads:
key, n8n node type and capability tags, in declaration order. -/
def n8nNodeCatalog : List (String × String × List String) :=
 [
  ("webhook", "n8n-nodes-base.webhook", ["trigger", "http_input", "webhook"]),
  ("manual_trigger", "n8n-nodes-base.manualTrigger", ["trigger", "manual"]),
  ("schedule_trigger", "n8n-nodes-base.scheduleTrigger", ["trigger", "schedule", "cron", "interval", "recurring"]),
  ("email_trigger_imap", "n8n-nodes-base.emailReadImap", ["trigger", "email", "imap"]),
  ("http_request", "n8n-nodes-base.httpRequest", ["api_call", "http", "rest", "custom_api", "universal"]),
  ("respond_to_webhook", "n8n-nodes-base.respondToWebhook", ["http_response", "webhook_response"]),
  ("hubspot", "n8n-nodes-base.hubspot", ["crm", "contacts", "companies", "deals", "tickets", "hubspot", "lead_management", "sales", "marketing"]),
  ("salesforce", "n8n-nodes-base.salesforce", ["crm", "contacts", "accounts", "leads", "opportunities", "salesforce", "sales", "enterprise_crm"]),
  ("pipedrive", "n8n-nodes-base.pipedrive", ["crm", "deals", "contacts", "organizations", "pipedrive", "sales"]),
  ("zoho_crm", "n8n-nodes-base.zohoCrm", ["crm", "leads", "contacts", "accounts", "deals", "zoho"]),
  ("gmail", "n8n-nodes-base.gmail", ["email", "gmail", "send_email", "receive_email", "drafts", "labels"]),
  ("outlook", "n8n-nodes-base.microsoftOutlook", ["email", "outlook", "microsoft", "send_email", "receive_email", "calendar"]),
  ("sendgrid", "n8n-nodes-base.sendGrid", ["email", "sendgrid", "send_email", "transactional", "marketing_email"]),
  ("mailchimp", "n8n-nodes-base.mailchimp", ["email", "mailchimp", "marketing", "newsletter", "campaigns", "subscribers"]),
  ("linkedin", "n8n-nodes-base.linkedIn", ["linkedin", "social_media", "company_page", "posts"]),
  ("slack", "n8n-nodes-base.slack", ["communication", "slack", "messaging", "channels", "notifications"]),
  ("discord", "n8n-nodes-base.discord", ["communication", "discord", "messaging", "webhooks"]),
  ("telegram", "n8n-nodes-base.telegram", ["communication", "telegram", "messaging", "bot", "notifications"]),
  ("twilio", "n8n-nodes-base.twilio", ["communication", "twilio", "sms", "voice", "phone"]),
  ("teams", "n8n-nodes-base.microsoftTeams", ["communication", "teams", "microsoft", "messaging", "channels"]),
  ("postgres", "n8n-nodes-base.postgres", ["database", "sql", "postgres", "storage", "query"]),
  ("mysql", "n8n-nodes-base.mySql", ["database", "sql", "mysql", "storage", "query"]),
  ("mongodb", "n8n-nodes-base.mongoDb", ["database", "nosql", "mongodb", "storage", "documents"]),
  ("airtable", "n8n-nodes-base.airtable", ["database", "airtable", "spreadsheet", "storage", "no_code"]),
  ("google_sheets", "n8n-nodes-base.googleSheets", ["spreadsheet", "google_sheets", "storage", "data"]),
  ("supabase", "n8n-nodes-base.supabase", ["database", "supabase", "postgres", "storage", "realtime"]),
  ("clearbit", "n8n-nodes-base.clearbit", ["enrichment", "clearbit", "person_lookup", "company_lookup", "data_enrichment"]),
  ("hunter", "n8n-nodes-base.hunter", ["enrichment", "hunter", "email_finder", "email_verification"]),
  ("calendly", "n8n-nodes-base.calendly", ["scheduling", "calendly", "appointments", "meetings"]),
  ("cal_com", "n8n-nodes-base.cal", ["scheduling", "cal_com", "appointments", "meetings", "open_source"]),
  ("google_calendar", "n8n-nodes-base.googleCalendar", ["scheduling", "google_calendar", "calendar", "events", "meetings"]),
  ("switch", "n8n-nodes-base.switch", ["branching", "routing", "conditional", "flow_control"]),
  ("if", "n8n-nodes-base.if", ["branching", "conditional", "flow_control"]),
  ("merge", "n8n-nodes-base.merge", ["merge", "combine", "join", "flow_control"]),
  ("no_op", "n8n-nodes-base.noOp", ["passthrough", "noop", "flow_control"]),
  ("filter", "n8n-nodes-base.filter", ["filter", "conditional", "flow_control"]),
  ("loop_over_items", "n8n-nodes-base.splitInBatches", ["loop", "batch", "iterate", "flow_control"]),
  ("set", "n8n-nodes-base.set", ["transform", "set_values", "modify", "data_manipulation"]),
  ("code", "n8n-nodes-base.code", ["transform", "code", "custom_logic", "javascript", "python"]),
  ("item_lists", "n8n-nodes-base.itemLists", ["transform", "list_operations", "sort", "limit", "split"]),
  ("aggregate", "n8n-nodes-base.aggregate", ["transform", "aggregate", "combine", "data_manipulation"]),
  ("wait", "n8n-nodes-base.wait", ["wait", "delay", "timer", "rate_limit"]),
  ("date_time", "n8n-nodes-base.dateTime", ["date", "time", "format", "parse", "calculate"]),
  ("crypto", "n8n-nodes-base.crypto", ["crypto", "hash", "encrypt", "sign", "security"]),
  ("html_extract", "n8n-nodes-base.html", ["html", "scrape", "extract", "parse"]),
  ("xml", "n8n-nodes-base.xml", ["xml", "parse", "convert"]),
  ("error_trigger", "n8n-nodes-base.errorTrigger", ["trigger", "error_handling", "monitoring"]),
  ("stop_and_error", "n8n-nodes-base.stopAndError", ["error", "stop", "abort"]),
  ("google_drive", "n8n-nodes-base.googleDrive", ["file_storage", "google_drive", "upload", "download", "share"]),
  ("dropbox", "n8n-nodes-base.dropbox", ["file_storage", "dropbox", "upload", "download"]),
  ("aws_s3", "n8n-nodes-base.s3", ["file_storage", "s3", "aws", "upload", "download", "bucket"]),
  ("typeform", "n8n-nodes-base.typeform", ["forms", "typeform", "surveys", "responses"]),
  ("google_forms", "n8n-nodes-base.googleForms", ["forms", "google_forms", "surveys", "responses"]),
  ("google_analytics", "n8n-nodes-base.googleAnalytics", ["analytics", "google_analytics", "reporting", "metrics"]),
  ("notion", "n8n-nodes-base.notion", ["project_management", "notion", "database", "pages", "notes"]),
  ("asana", "n8n-nodes-base.asana", ["project_management", "asana", "tasks", "projects"]),
  ("trello", "n8n-nodes-base.trello", ["project_management", "trello", "boards", "cards", "kanban"]),
  ("jira", "n8n-nodes-base.jira", ["project_management", "jira", "issues", "agile", "tickets"]),
  ("twitter", "n8n-nodes-base.twitter", ["social_media", "twitter", "tweets", "x"]),
  ("facebook", "n8n-nodes-base.facebookGraphApi", ["social_media", "facebook", "posts", "pages"]) ]

/-- `INTEGRATION_REGISTRY`: key, `has_native_node` and
`native_node_type`. -/
def integrationRegistry : List (String × Bool × Option String) :=
  [("hubspot", true, some "n8n-nodes-base.hubspot"),
   ("salesforce", true, some "n8n-nodes-base.salesforce"),
   ("slack", true, some "n8n-nodes-base.slack"),
   ("gmail", true, some "n8n-nodes-base.gmail"),
   ("linkedin", true, some "n8n-nodes-base.linkedIn"),
   ("phantombuster", false, none),
   ("apollo", false, none),
   ("clay", false, none),
   ("instantly", false, none),
   ("lemlist", false, none)]

/-- The keys of `API_REGISTRY` in `app/n8n/api_knowledge.py`. -/
def apiRegistryKeys : List String :=
  ["phantombuster", "apollo", "clearbit", "clay", "instantly", "lemlist",
   "zoominfo", "perplexity"]

/-- Catalog lookup by key. -/
def catalogFind (key : String) : Option (String × String × List String) :=
  n8nNodeCatalog.find? (fun e => e.1 = key)

/-- `info.native_node_type.split(".")[-1].lower()`. -/
def lastDotComponent (s : String) : String :=
  match (s.splitOn ".").getLast? with
  | some x => x
  | none => s

/-- `_resolve_general`: score capability-keyword overlap against the node
index (a strictly better score wins, first best kept), falling back to a
generic HTTP Request. -/
def resolveGeneral (intent : String) : ResolvedCapability :=
  let intentLower := toLowerStr intent
  let best := n8nNodeCatalog.foldl
    (fun (acc : Option (String × String) × Nat) e =>
      let score := (e.2.2.filter (fun cap => strContains intentLower cap)).length
      if acc.2 < score then (some (e.1, e.2.1), score) else acc)
    (none, 0)
  match best.1 with
  | some ke =>
    { intent := intent, use_native_node := true, node_type := some ke.2,
      node_key := some ke.1 }
  | none =>
    { intent := intent, use_native_node := true,
      node_type := some "n8n-nodes-base.httpRequest", node_key := some "http_request" }

/-- `_resolve_explicit_tool`: native catalog first, then the integration
registry (when its native node key exists in the catalog), then the
external API registry, then the general fallback. -/
def resolveExplicitTool (intent tool : String) : ResolvedCapability :=
  match catalogFind tool with
  | some e =>
    { intent := intent, use_native_node := true, node_type := some e.2.1,
      node_key := some tool }
  | none =>
    let viaIntegration : Option ResolvedCapability :=
      match integrationRegistry.find? (fun e => e.1 = tool) with
      | some e =>
        if e.2.1 then
          let nodeKey := match e.2.2 with
            | some nt => toLowerStr (lastDotComponent nt)
            | none => tool
          match catalogFind nodeKey with
          | some _ =>
              some { intent := intent, use_native_node := true,
                     node_type := e.2.2, node_key := some nodeKey }
          | none => none
        else none
      | none => none
    match viaIntegration with
    | some r => r
    | none =>
      if apiRegistryKeys.contains tool then
        { intent := intent, use_native_node := false, api_name := some tool }
      else resolveGeneral intent

/-- `_resolve_linkedin`. -/
def resolveLinkedin (intent specific : String) : ResolvedCapability :=
  let low := toLowerStr intent
  if specific = "company_post" || strContains low "company page" then
    { intent := intent, use_native_node := true,
      node_type := some "n8n-nodes-base.linkedIn", node_key := some "linkedin",
      resource := some "post", operation := some "create" }
  else if specific = "send_message" then
    { intent := intent, use_native_node := false, api_name := some "phantombuster",
      api_endpoint := some "launch_agent" }
  else if specific = "send_connection" then
    { intent := intent, use_native_node := false, api_name := some "phantombuster",
      api_endpoint := some "launch_agent" }
  else if specific = "search_people" then
    { intent := intent, use_native_node := false, api_name := some "phantombuster",
      api_endpoint := some "launch_agent" }
  else if specific = "scrape_profile" then
    { intent := intent, use_native_node := false, api_name := some "phantombuster",
      api_endpoint := some "launch_agent" }
  else
    { intent := intent, use_native_node := false, api_name := some "phantombuster" }

/-- `_resolve_enrichment`. -/
def resolveEnrichment (intent specific : String) : ResolvedCapability :=
  let low := toLowerStr intent
  if strContains low "clearbit" then
    { intent := intent, use_native_node := true,
      node_type := some "n8n-nodes-base.clearbit", node_key := some "clearbit",
      resource := some (if strContains low "person" then "person" else "company"),
      operation := some "enrich" }
  else if strContains low "apollo" ||
      (specific = "person_enrichment" || specific = "email_finder") then
    { intent := intent, use_native_node := false, api_name := some "apollo",
      api_endpoint := some (if strContains low "person" || strContains low "email"
        then "enrich_person" else "search_people") }
  else if strContains low "clay" then
    { intent := intent, use_native_node := false, api_name := some "clay",
      api_endpoint := some "enrich_person" }
  else if specific = "company_enrichment" then
    { intent := intent, use_native_node := true,
      node_type := some "n8n-nodes-base.clearbit", node_key := some "clearbit",
      resource := some "company", operation := some "enrich" }
  else
    { intent := intent, use_native_node := false, api_name := some "apollo",
      api_endpoint := some "enrich_person" }

/-- `_resolve_email`. -/
def resolveEmail (intent specific : String) : ResolvedCapability :=
  let low := toLowerStr intent
  if specific = "cold_email" || strContains low "cold" || strContains low "sequence" then
    if strContains low "instantly" then
      { intent := intent, use_native_node := false, api_name := some "instantly",
        api_endpoint := some "add_leads" }
    else if strContains low "lemlist" then
      { intent := intent, use_native_node := false, api_name := some "lemlist",
        api_endpoint := some "add_lead_to_campaign" }
    else
      { intent := intent, use_native_node := false, api_name := some "instantly",
        api_endpoint := some "add_leads" }
  else if strContains low "gmail" then
    { intent := intent, use_native_node := true, node_type := some "n8n-nodes-base.gmail",
      node_key := some "gmail", resource := some "message", operation := some "send" }
  else if strContains low "outlook" || strContains low "microsoft" then
    { intent := intent, use_native_node := true,
      node_type := some "n8n-nodes-base.microsoftOutlook", node_key := some "outlook",
      resource := some "message", operation := some "send" }
  else if strContains low "sendgrid" then
    { intent := intent, use_native_node := true,
      node_type := some "n8n-nodes-base.sendGrid", node_key := some "sendgrid",
      resource := some "mail", operation := some "send" }
  else
    { intent := intent, use_native_node := true, node_type := some "n8n-nodes-base.gmail",
      node_key := some "gmail", resource := some "message", operation := some "send" }

/-- `_resolve_ai_task`: always routed to an agent. -/
def resolveAiTask (intent _specific : String) : ResolvedCapability :=
  { intent := intent, use_native_node := false, requires_agent := true }

/-- `_resolve_crm`. -/
def resolveCrm (intent _specific : String) : ResolvedCapability :=
  let low := toLowerStr intent
  if strContains low "hubspot" then
    { intent := intent, use_native_node := true, node_type := some "n8n-nodes-base.hubspot",
      node_key := some "hubspot",
      resource := some (if strContains low "company" || strContains low "companies"
          then "company"
        else if strContains low "deal" then "deal"
        else if strContains low "ticket" then "ticket"
        else "contact") }
  else if strContains low "salesforce" then
    { intent := intent, use_native_node := true,
      node_type := some "n8n-nodes-base.salesforce", node_key := some "salesforce",
      resource := some (if strContains low "account" then "account"
        else if strContains low "lead" then "lead"
        else if strContains low "opportunity" then "opportunity"
        else "contact") }
  else if strContains low "pipedrive" then
    { intent := intent, use_native_node := true,
      node_type := some "n8n-nodes-base.pipedrive", node_key := some "pipedrive" }
  else
    { intent := intent, use_native_node := true,
      node_type := some "n8n-nodes-base.hubspot", node_key := some "hubspot" }

/-- `_resolve_communication`: the ordered platform checks, with the SMS
branch (`"twilio" in intent or "sms" in intent`) resolving to the native
Twilio node with resource `sms`. -/
def resolveCommunication (intent _specific : String) : ResolvedCapability :=
  let low := toLowerStr intent
  if strContains low "slack" then
    { intent := intent, use_native_node := true, node_type := some "n8n-nodes-base.slack",
      node_key := some "slack", resource := some "message", operation := some "post" }
  else if strContains low "discord" then
    { intent := intent, use_native_node := true,
      node_type := some "n8n-nodes-base.discord", node_key := some "discord",
      resource := some "message", operation := some "send" }
  else if strContains low "telegram" then
    { intent := intent, use_native_node := true,
      node_type := some "n8n-nodes-base.telegram", node_key := some "telegram",
      resource := some "message", operation := some "send" }
  else if strContains low "twilio" || strContains low "sms" then
    { intent := intent, use_native_node := true,
      node_type := some "n8n-nodes-base.twilio", node_key := some "twilio",
      resource := some "sms", operation := some "send" }
  else if strContains low "teams" || strContains low "microsoft teams" then
    { intent := intent, use_native_node := true,
      node_type := some "n8n-nodes-base.microsoftTeams", node_key := some "teams" }
  else
    { intent := intent, use_native_node := true, node_type := some "n8n-nodes-base.slack",
      node_key := some "slack" }

/-- `_resolve_scheduling`. -/
def resolveScheduling (intent _specific : String) : ResolvedCapability :=
  let low := toLowerStr intent
  if strContains low "calendly" then
    { intent := intent, use_native_node := true,
      node_type := some "n8n-nodes-base.calendly", node_key := some "calendly" }
  else if strContains low "cal.com" || strContains low "cal com" then
    { intent := intent, use_native_node := true, node_type := some "n8n-nodes-base.cal",
      node_key := some "cal_com" }
  else if strContains low "google calendar" then
    { intent := intent, use_native_node := true,
      node_type := some "n8n-nodes-base.googleCalendar", node_key := some "google_calendar" }
  else
    { intent := intent, use_native_node := true,
      node_type := some "n8n-nodes-base.googleCalendar", node_key := some "google_calendar" }

/-- `_resolve_database`. -/
def resolveDatabase (intent _specific : String) : ResolvedCapability :=
  let low := toLowerStr intent
  if strContains low "postgres" || strContains low "postgresql" then
    { intent := intent, use_native_node := true,
      node_type := some "n8n-nodes-base.postgres", node_key := some "postgres" }
  else if strContains low "mysql" then
    { intent := intent, use_native_node := true, node_type := some "n8n-nodes-base.mySql",
      node_key := some "mysql" }
  else if strContains low "mongodb" || strContains low "mongo" then
    { intent := intent, use_native_node := true,
      node_type := some "n8n-nodes-base.mongoDb", node_key := some "mongodb" }
  else if strContains low "airtable" then
    { intent := intent, use_native_node := true,
      node_type := some "n8n-nodes-base.airtable", node_key := some "airtable" }
  else if strContains low "google sheets" || strContains low "spreadsheet" then
    { intent := intent, use_native_node := true,
      node_type := some "n8n-nodes-base.googleSheets", node_key := some "google_sheets" }
  else if strContains low "supabase" then
    { intent := intent, use_native_node := true,
      node_type := some "n8n-nodes-base.supabase", node_key := some "supabase" }
  else
    { intent := intent, use_native_node := true,
      node_type := some "n8n-nodes-base.postgres", node_key := some "postgres" }

/-- `_resolve_research`: Perplexity with an endpoint chosen by keyword. -/
def resolveResearch (intent _specific : String) : ResolvedCapability :=
  let low := toLowerStr intent
  let endpoint :=
    if strContains low "company" || strContains low "business" then "company_research"
    else if strContains low "lead" || strContains low "person" || strContains low "prospect"
      then "lead_research"
    else if strContains low "research" then "research"
    else "chat_completions"
  { intent := intent, use_native_node := false, api_name := some "perplexity",
    api_endpoint := some endpoint }

/-- `CapabilityResolver.resolve`: classify the lowercased intent against
the ordered pattern table, short-circuit on explicit tool mentions, then
dispatch to the category resolver. -/
def resolveIntent (intent : String) : ResolvedCapability :=
  let intentLower := toLowerStr intent
  let cs := parseIntent intentLower
  match detectExplicitTool intentLower with
  | some tool => resolveExplicitTool intent tool
  | none =>
    if cs.1 = "linkedin" then resolveLinkedin intent cs.2
    else if cs.1 = "enrichment" then resolveEnrichment intent cs.2
    else if cs.1 = "email" then resolveEmail intent cs.2
    else if cs.1 = "ai" then resolveAiTask intent cs.2
    else if cs.1 = "crm" then resolveCrm intent cs.2
    else if cs.1 = "communication" then resolveCommunication intent cs.2
    else if cs.1 = "scheduling" then resolveScheduling intent cs.2
    else if cs.1 = "database" then resolveDatabase intent cs.2
    else if cs.1 = "research" then resolveResearch intent cs.2
    else resolveGeneral intent

set_option maxRecDepth 20000 in
/-- C7. Resolving "Send an SMS to the customer" yields the SMS/telephony
resolution: the ordered first-match intent table classifies it as
`(communication, send_sms)` (the SMS pattern precedes every email
pattern), no explicit tool is detected, and the communication resolver
returns the native Twilio node with resource `sms` - not a generic-email
resolution. -/
theorem C7_resolver_sms :
    resolveIntent "Send an SMS to the customer" =
      { intent := "Send an SMS to the customer", use_native_node := true,
        node_type := some "n8n-nodes-base.twilio", node_key := some "twilio",
        resource := some "sms", operation := some "send" } ∧
    parseIntent (toLowerStr "Send an SMS to the customer") =
      ("communication", "send_sms") ∧
    (resolveIntent "Send an SMS to the customer").node_type ≠
      some "n8n-nodes-base.gmail" := by
  refine ⟨by decide, by decide, by decide⟩


end SynthEngine
